import Mathlib

/-!
# gethtx: deposit smoke-test flow (main.go)

A shallow embedding of main.go.  The program talks to a chain node and to the
go-ethereum library; both are external, so every call into them is answered by
an environment record (Env) and is recorded in a trace of events.  A program is
a function from the trace so far to an outcome and the extended trace.

Go values are embedded as follows.
* An error value is its message (Error := String); a nil error is none.
* A pointer is an Option; *big.Int is Option Int.
* uint64 is Nat reduced modulo 2^64 where a conversion happens; int64 is Int
  wrapped into [-2^63, 2^63).
* A call returning (value, err) returns a pair.
* The two polling loops have no bound in Go; here they take a fuel argument
  (the number of loop iterations allowed) and end in Outcome.running when it is
  used up.
-/

namespace Gethtx

/-! ## Data of the go-ethereum library -/

/-- Error value of Go, identified by the text of its Error() method. -/
abbrev Error := String

/-- The type common.Address (20 bytes), as the number the bytes denote. -/
abbrev Address := Nat

/-- The type common.Hash (32 bytes), as the number the bytes denote. -/
abbrev Hash := Nat

/-- The type ecdsa.PrivateKey. -/
abbrev PrivateKey := Nat

/-- Byte slice. -/
abbrev Bytes := List Nat

/-- The type types.LegacyTx, with the fields main.go sets. -/
structure LegacyTx where
  Nonce : Nat
  To : Option Address
  Value : Option Int
  Gas : Nat
  GasPrice : Option Int
deriving DecidableEq, Repr

/-- The type types.Transaction: a transaction handed back by the library,
identified by its hash. -/
structure Transaction where
  hash : Hash
deriving DecidableEq, Repr

/-- The type types.Receipt, with the fields that identify it. -/
structure Receipt where
  TxHash : Hash
  Status : Nat
  BlockNumber : Nat
deriving DecidableEq, Repr

/-- The signer callback of main.go (lines 90-96): a closure that calls
types.SignTx(tx, signer, userPK); it is recorded by what it captures, the chain
id of the EIP-155 signer and the key. -/
structure SignerFn where
  chainID : Option Int
  key : PrivateKey
deriving DecidableEq, Repr

/-- The type bind.TransactOpts. -/
structure TransactOpts where
  From : Address
  Signer : SignerFn
  GasPrice : Option Int
  GasLimit : Nat
  GasFeeCap : Option Int
  GasTipCap : Option Int
  Nonce : Option Int
  Value : Option Int
  Context : Option Unit
  NoSend : Bool
deriving DecidableEq, Repr

/-! ## Machine integers -/

/-- Conversion to uint64. -/
def uint64 (n : Nat) : Nat := n % 2 ^ 64

/-- Conversion int64(x) of an unsigned 64-bit value: the same 64 bits read as
two-complement. -/
def int64 (n : Nat) : Int :=
  if n % 2 ^ 64 < 2 ^ 63 then ((n % 2 ^ 64 : Nat) : Int)
  else ((n % 2 ^ 64 : Nat) : Int) - 2 ^ 64

/-- The function big.NewInt: a fresh big integer holding the int64 argument. -/
def bigNewInt (x : Int) : Option Int := some x

/-- The type hexutil.Uint64 is uint64 with a hex encoding: the conversion keeps
the value. -/
def hexutilUint64 (n : Nat) : Nat := uint64 n

/-- The constant time.Second, in nanoseconds. -/
def Second : Nat := 1000000000

/-! ## Events and the environment -/

/-- One interaction with the outside world, in the order main.go performs
them. -/
inductive Event where
  | dial (url : String)
  | generateKey
  | callContext (method : String) (account : Address) (balance : Nat)
  | suggestGasPrice
  | chainID
  | signTx (tx : LegacyTx) (chainID : Option Int) (key : PrivateKey)
  | sendTransaction (tx : Option Transaction)
  | codeAt (account : Address)
  | transactionReceipt (txHash : Hash)
  | nonceAt (account : Address)
  | newOptimismPortal (address : Address)
  | depositTransaction (opts : TransactOpts) (toAddr : Address) (value : Option Int)
      (gasLimit : Nat) (isCreation : Bool) (data : Bytes)
  | marshalIndent (receipt : Option Receipt)
  | sleep (d : Nat)
  | lf (ts : String) (msg : String)
  | println (msg : String)
deriving DecidableEq, Repr

abbrev Trace := List Event

namespace Event

def isCallContext : Event → Bool
  | callContext _ _ _ => true
  | _ => false

def isSuggestGasPrice : Event → Bool
  | suggestGasPrice => true
  | _ => false

def isChainID : Event → Bool
  | chainID => true
  | _ => false

def isSignTx : Event → Bool
  | signTx _ _ _ => true
  | _ => false

def isSendTransaction : Event → Bool
  | sendTransaction _ => true
  | _ => false

def isCodeAt : Event → Bool
  | codeAt _ => true
  | _ => false

def isTransactionReceipt : Event → Bool
  | transactionReceipt _ => true
  | _ => false

def isNonceAt : Event → Bool
  | nonceAt _ => true
  | _ => false

def isDepositTransaction : Event → Bool
  | depositTransaction _ _ _ _ _ _ => true
  | _ => false

def isSleep : Event → Bool
  | sleep _ => true
  | _ => false

def isLf : Event → Bool
  | lf _ _ => true
  | _ => false

/-- Log line with the given message. -/
def isLfWith (msg : String) : Event → Bool
  | lf _ m => decide (m = msg)
  | _ => false

/-- Sleep of the given duration. -/
def isSleepOf (d : Nat) : Event → Bool
  | sleep x => decide (x = d)
  | _ => false

end Event

/-- The node and the library.  A node operation takes, as first argument, the
number of earlier calls of the same operation in the run, so that the node may
answer the same question differently over time. -/
structure Env where
  /-- rpc.Dial -/
  dial : String → Option Error
  /-- crypto.GenerateKey -/
  generateKey : PrivateKey × Option Error
  /-- crypto.PubkeyToAddress of the public half of a key -/
  pubkeyToAddress : PrivateKey → Address
  /-- rpc.Client.CallContext with a nil result, for a method, an account and a
  balance -/
  callContext : Nat → String → Address → Nat → Option Error
  /-- ethclient.Client.SuggestGasPrice -/
  suggestGasPrice : Nat → Option Int × Option Error
  /-- ethclient.Client.ChainID -/
  chainID : Nat → Option Int × Option Error
  /-- types.SignTx(types.NewTx(tx), types.NewEIP155Signer(id), key) -/
  signTx : LegacyTx → Option Int → PrivateKey → Option Transaction × Option Error
  /-- ethclient.Client.SendTransaction -/
  sendTransaction : Nat → Option Transaction → Option Error
  /-- ethclient.Client.CodeAt at the latest block -/
  codeAt : Nat → Address → Bytes × Option Error
  /-- ethclient.Client.TransactionReceipt -/
  transactionReceipt : Nat → Hash → Option Receipt × Option Error
  /-- ethclient.Client.NonceAt at the latest block -/
  nonceAt : Nat → Address → Nat × Option Error
  /-- bindings.NewOptimismPortal -/
  newOptimismPortal : Address → Option Error
  /-- The DepositTransaction method of the portal binding -/
  depositTransaction : Nat → TransactOpts → Address → Option Int → Nat → Bool → Bytes →
    Option Transaction × Option Error
  /-- json.MarshalIndent of a receipt -/
  marshalIndent : Option Receipt → String × Option Error
  /-- The clock: time.Now().Format("[15:04:05.000] ") at the k-th log line -/
  now : Nat → String
  /-- common.HexToAddress -/
  hexToAddress : String → Address
  /-- Rendering of an address under the verb %s -/
  addressString : Address → String
  /-- common.Hash.Hex -/
  hashHex : Hash → String
  /-- Rendering of a transaction pointer under the verb %+v -/
  formatTx : Option Transaction → String

/-! ## Programs -/

/-- How a piece of the program ends. -/
inductive Outcome (α : Type) where
  /-- normal return -/
  | ret (a : α)
  /-- log.Fatal: the message is printed and the process exits with status 1 -/
  | fatal (msg : String)
  /-- panic, log.Panicf, or a nil dereference -/
  | panic (msg : String)
  /-- a polling loop that is still going when the fuel is used up -/
  | running
deriving DecidableEq, Repr

/-- Program: from the trace so far to an outcome and the extended trace. -/
def Prog (α : Type) : Type := Trace → Outcome α × Trace

namespace Prog

/-- Return a value without any interaction. -/
def ret {α : Type} (a : α) : Prog α := fun t => (Outcome.ret a, t)

/-- Sequencing: the second program runs only when the first returns normally;
log.Fatal, a panic and a loop still running end the whole program. -/
def andThen {α β : Type} (m : Prog α) (f : α → Prog β) : Prog β := fun t =>
  match m t with
  | (Outcome.ret a, t') => f a t'
  | (Outcome.fatal msg, t') => (Outcome.fatal msg, t')
  | (Outcome.panic msg, t') => (Outcome.panic msg, t')
  | (Outcome.running, t') => (Outcome.running, t')

instance : Monad Prog where
  pure := Prog.ret
  bind := Prog.andThen

/-- Perform one interaction: record the event and hand back the answer. -/
def act {α : Type} (e : Event) (answer : α) : Prog α := fun t => (Outcome.ret answer, t ++ [e])

/-- Number of earlier events of one kind. -/
def calls (p : Event → Bool) : Prog Nat := fun t => (Outcome.ret (t.countP p), t)

/-- The call log.Fatal. -/
def logFatal {α : Type} (msg : String) : Prog α := fun t => (Outcome.fatal msg, t)

/-- The calls panic and log.Panicf. -/
def goPanic {α : Type} (msg : String) : Prog α := fun t => (Outcome.panic msg, t)

/-- A polling loop whose fuel is used up. -/
def outOfFuel {α : Type} : Prog α := fun t => (Outcome.running, t)

end Prog

open Prog

/-! ## main.go -/

/-- Lines 144-148: one timestamped line on standard output (Printf of the
timestamp followed by the formatted message, then Println). -/
def lf (env : Env) (msg : String) : Prog Unit := do
  let k ← calls Event.isLf
  act (Event.lf (env.now k) msg) ()

/-- The call time.Sleep. -/
def timeSleep (d : Nat) : Prog Unit := act (Event.sleep d) ()

/-- The call client.ethclient.CodeAt(ctx, account, nil). -/
def ethCodeAt (env : Env) (account : Address) : Prog (Bytes × Option Error) := do
  let k ← calls Event.isCodeAt
  act (Event.codeAt account) (env.codeAt k account)

/-- The call client.ethclient.TransactionReceipt(ctx, txHash). -/
def ethTransactionReceipt (env : Env) (txHash : Hash) : Prog (Option Receipt × Option Error) := do
  let k ← calls Event.isTransactionReceipt
  act (Event.transactionReceipt txHash) (env.transactionReceipt k txHash)

/-- Lines 151-164, the loop: the second argument is the flag foundContract, the
first the number of iterations still allowed. -/
def waitForContractLoop (env : Env) (contractAddress name : String) : Nat → Bool → Prog Unit
  | _, true => pure ()
  | 0, false => outOfFuel
  | fuel + 1, false => do
      let (codeAt, err) ← ethCodeAt env (env.hexToAddress contractAddress)
      if err ≠ none ∨ codeAt.length = 0 then
        timeSleep (1 * Second)
        lf env ("waiting for contract [" ++ name ++ "] to be deployed")
        waitForContractLoop env contractAddress name fuel false
      else
        lf env ("found contract [" ++ name ++ "]")
        waitForContractLoop env contractAddress name fuel true

/-- Lines 151-164: blocks until a contract is deployed at the given address. -/
def waitForContract (env : Env) (fuel : Nat) (contractAddress name : String) : Prog Unit :=
  waitForContractLoop env contractAddress name fuel false

/-- Lines 128-142, the loop and the trailing return nil: the second argument is
the flag foundReceipt, the first the number of iterations still allowed. -/
def waitForReceiptLoop (env : Env) (txHash : Hash) (name : String) :
    Nat → Bool → Prog (Option Receipt)
  | _, true => pure none
  | 0, false => outOfFuel
  | fuel + 1, false => do
      let (receipt, err) ← ethTransactionReceipt env txHash
      if err ≠ none ∨ receipt = none then
        timeSleep (1 * Second)
        lf env ("waiting for receipt [" ++ name ++ "] to be mined")
        waitForReceiptLoop env txHash name fuel false
      else
        lf env ("found receipt [" ++ name ++ "]")
        pure receipt

/-- Lines 128-142. -/
def waitForReceipt (env : Env) (fuel : Nat) (txHash : Hash) (name : String) :
    Prog (Option Receipt) :=
  waitForReceiptLoop env txHash name fuel false

/-- The statement "if err != nil then handler": runs the handler on a non-nil
error and goes on otherwise. -/
def ifErr (err : Option Error) (handler : Error → Prog Unit) : Prog Unit :=
  match err with
  | some e => handler e
  | none => pure ()

/-- Lines 171-181: dials the node; log.Fatal when the dial fails. -/
def NewAnvilClient (env : Env) (url : String) : Prog Unit := do
  let err ← act (Event.dial url) (env.dial url)
  ifErr err (fun e => logFatal e)

/-- Lines 183-188: the method AnvilClient.SetBalance.  One CallContext for the
method anvil_setBalance with the account and hexutil.Uint64(balance); on failure
the result is fmt.Errorf("%s, %d: %v", account, balance, err). -/
def SetBalance (env : Env) (account : Address) (balance : Nat) : Prog (Option Error) := do
  let k ← calls Event.isCallContext
  let err ← act (Event.callContext "anvil_setBalance" account (hexutilUint64 balance))
    (env.callContext k "anvil_setBalance" account (hexutilUint64 balance))
  match err with
  | some e => pure (some (env.addressString account ++ ", " ++ toString balance ++ ": " ++ e))
  | none => pure none

/-- The call client.ethclient.SuggestGasPrice(ctx). -/
def ethSuggestGasPrice (env : Env) : Prog (Option Int × Option Error) := do
  let k ← calls Event.isSuggestGasPrice
  act Event.suggestGasPrice (env.suggestGasPrice k)

/-- The call client.ethclient.ChainID(ctx). -/
def ethChainID (env : Env) : Prog (Option Int × Option Error) := do
  let k ← calls Event.isChainID
  act Event.chainID (env.chainID k)

/-- The call client.ethclient.SendTransaction(ctx, tx). -/
def ethSendTransaction (env : Env) (tx : Option Transaction) : Prog (Option Error) := do
  let k ← calls Event.isSendTransaction
  act (Event.sendTransaction tx) (env.sendTransaction k tx)

/-- The call client.ethclient.NonceAt(ctx, account, nil); the result is a
uint64. -/
def ethNonceAt (env : Env) (account : Address) : Prog (Nat × Option Error) := do
  let k ← calls Event.isNonceAt
  act (Event.nonceAt account) (uint64 (env.nonceAt k account).1, (env.nonceAt k account).2)

/-- The call fmt.Println with the operands already joined. -/
def println (msg : String) : Prog Unit := act (Event.println msg) ()

/-- Method call through a transaction pointer: a nil pointer panics. -/
def deref (tx : Option Transaction) : Prog Transaction :=
  match tx with
  | some x => pure x
  | none => goPanic "runtime error: invalid memory address or nil pointer dereference"

/-- Line 31: the constant 10*1e18 converted to the uint64 parameter. -/
def seedBalance : Nat := uint64 (10 * 10 ^ 18)

/-- Line 53: big.NewInt(1e18 / 100). -/
def transferValue : Option Int := bigNewInt (int64 (10 ^ 18 / 100))

/-- Lines 50-56: the plain transfer. -/
def transferTx (price : Option Int) : LegacyTx :=
  { Nonce := 0
    To := some 0
    Value := transferValue
    Gas := 21000
    GasPrice := price }

/-- Line 71. -/
def depositAddress : String := "0xEE915F299A6d1eFf68c6EA22E5f93cFD551936F3"

/-- Lines 88-105: the options of the deposit call. -/
def depositOpts (userAddress : Address) (id price : Option Int) (userPK : PrivateKey)
    (nonce : Nat) : TransactOpts :=
  { From := userAddress
    Signer := { chainID := id, key := userPK }
    GasPrice := price
    GasLimit := uint64 (10 ^ 6)
    GasFeeCap := none
    GasTipCap := none
    Nonce := bigNewInt (int64 nonce)
    Value := bigNewInt (int64 (10 ^ 18))
    Context := none
    NoSend := false }

/-- Line 107: the value argument of the deposit call, big.NewInt(1e18/2). -/
def depositValue : Option Int := bigNewInt (int64 (10 ^ 18 / 2))

/-- Line 108: the gas limit argument of the deposit call, 25_000_000/2. -/
def depositGasLimit : Nat := uint64 (25000000 / 2)

/-- Lines 87-111: the call portal.DepositTransaction. -/
def portalDepositTransaction (env : Env) (opts : TransactOpts) (toAddr : Address)
    (value : Option Int) (gasLimit : Nat) (isCreation : Bool) (data : Bytes) :
    Prog (Option Transaction × Option Error) := do
  let k ← calls Event.isDepositTransaction
  act (Event.depositTransaction opts toAddr value gasLimit isCreation data)
    (env.depositTransaction k opts toAddr value gasLimit isCreation data)

/-- Lines 21-126: the orchestrator.  The client of the source is the environment
env; fuel is the number of iterations allowed to each of the two polling
loops. -/
def main (env : Env) (fuel : Nat) : Prog Unit := do
  NewAnvilClient env "http://localhost:8888"
  let (userPK, err) ← act Event.generateKey env.generateKey
  ifErr err (fun e => logFatal e)
  let userAddress := env.pubkeyToAddress userPK
  let err ← SetBalance env userAddress seedBalance
  ifErr err (fun e => logFatal e)
  let (price, err) ← ethSuggestGasPrice env
  ifErr err (fun e => goPanic e)
  let (id, err) ← ethChainID env
  ifErr err (fun e => goPanic e)
  let (signedTx, err) ← act (Event.signTx (transferTx price) id userPK)
    (env.signTx (transferTx price) id userPK)
  ifErr err (fun e => goPanic e)
  let err ← ethSendTransaction env signedTx
  ifErr err (fun e => goPanic e)
  let sent ← deref signedTx
  lf env ("tx sent: " ++ env.hashHex sent.hash)
  waitForContract env fuel depositAddress "OptimismPortal"
  let err ← act (Event.newOptimismPortal (env.hexToAddress depositAddress))
    (env.newOptimismPortal (env.hexToAddress depositAddress))
  ifErr err (fun e => goPanic e)
  println "portal created"
  let (nonce, err) ← ethNonceAt env userAddress
  ifErr err (fun e => goPanic ("err getting nonce: " ++ e))
  println ("User nonce:  " ++ toString nonce)
  let (depositTx, err) ← portalDepositTransaction env
    (depositOpts userAddress id price userPK nonce)
    userAddress depositValue depositGasLimit false []
  ifErr err (fun e => do
    lf env ("deposit tx: " ++ env.formatTx depositTx)
    goPanic ("error submitting deposit tx: " ++ e))
  let deposit ← deref depositTx
  lf env ("deposit tx sent: " ++ env.hashHex deposit.hash)
  let receipt ← waitForReceipt env fuel deposit.hash "depositTx"
  let (str, err) ← act (Event.marshalIndent receipt) (env.marshalIndent receipt)
  ifErr err (fun e => goPanic ("error marshalling receipt: " ++ e))
  lf env ("deposit receipt:\n\n" ++ str)

/-! ## Values and events of a run of main, for stating its traces -/

/-- The events of n unsuccessful rounds of a poller: query, sleep of one second,
progress line, n times over.  The argument l is the number of log lines before
the poller starts. -/
def retryEvents (env : Env) (query : Event) (progress : String) (l n : Nat) : List Event :=
  (List.range n).flatMap (fun k => [query, Event.sleep Second, Event.lf (env.now (l + k)) progress])

/-- The events of a poller that succeeds at its (N+1)-th query: N unsuccessful
rounds, then the query and the success line. -/
def pollEvents (env : Env) (query : Event) (progress found : String) (l N : Nat) : List Event :=
  retryEvents env query progress l N ++ [query, Event.lf (env.now (l + N)) found]

/-- The key main generates. -/
def runKey (env : Env) : PrivateKey := env.generateKey.1

/-- The address of the account of the run. -/
def runAddress (env : Env) : Address := env.pubkeyToAddress env.generateKey.1

/-- The gas price main reads. -/
def runPrice (env : Env) : Option Int := (env.suggestGasPrice 0).1

/-- The chain id main reads. -/
def runChainID (env : Env) : Option Int := (env.chainID 0).1

/-- The signed transfer. -/
def runSignedTx (env : Env) : Option Transaction :=
  (env.signTx (transferTx (runPrice env)) (runChainID env) (runKey env)).1

/-- The address of the bridge contract. -/
def bridgeAddress (env : Env) : Address := env.hexToAddress depositAddress

/-- The nonce main reads for the deposit. -/
def runNonce (env : Env) : Nat := uint64 (env.nonceAt 0 (runAddress env)).1

/-- The options main passes to the deposit call. -/
def runOpts (env : Env) : TransactOpts :=
  depositOpts (runAddress env) (runChainID env) (runPrice env) (runKey env) (runNonce env)

/-- The answer to the deposit call. -/
def runDeposit (env : Env) : Option Transaction × Option Error :=
  env.depositTransaction 0 (runOpts env) (runAddress env) depositValue depositGasLimit false []

/-- The events of main up to and including the broadcast of the transfer. -/
def headEvents (env : Env) : List Event :=
  [Event.dial "http://localhost:8888", Event.generateKey,
    Event.callContext "anvil_setBalance" (runAddress env) (hexutilUint64 seedBalance),
    Event.suggestGasPrice, Event.chainID,
    Event.signTx (transferTx (runPrice env)) (runChainID env) (runKey env),
    Event.sendTransaction (runSignedTx env)]

/-- The events of main from the end of the readiness poller up to and including
the deposit call. -/
def bridgeEvents (env : Env) : List Event :=
  [Event.newOptimismPortal (bridgeAddress env), Event.println "portal created",
    Event.nonceAt (runAddress env), Event.println ("User nonce:  " ++ toString (runNonce env)),
    Event.depositTransaction (runOpts env) (runAddress env) depositValue depositGasLimit false []]

/-- Abnormal termination: log.Fatal or a panic. -/
def Outcome.isAbort {α : Type} : Outcome α → Bool
  | Outcome.fatal _ => true
  | Outcome.panic _ => true
  | _ => false

/-! ## A concrete node, for evaluating the program -/

/-- A node on which the bridge contract appears at the third query and the
deposit receipt at the second; everything else succeeds at once. -/
def demoEnv : Env :=
  { dial := fun _ => none
    generateKey := (7, none)
    pubkeyToAddress := fun k => k + 1
    callContext := fun _ _ _ _ => none
    suggestGasPrice := fun _ => (some 2, none)
    chainID := fun _ => (some 31337, none)
    signTx := fun _ _ _ => (some { hash := 11 }, none)
    sendTransaction := fun _ _ => none
    codeAt := fun k _ => if k < 2 then ([], none) else ([96, 128], none)
    transactionReceipt := fun k h =>
      if k < 1 then (none, some "not found")
      else (some { TxHash := h, Status := 1, BlockNumber := 5 }, none)
    nonceAt := fun _ _ => (1, none)
    newOptimismPortal := fun _ => none
    depositTransaction := fun _ _ _ _ _ _ _ => (some { hash := 22 }, none)
    marshalIndent := fun _ => ("json", none)
    now := fun _ => "ts "
    hexToAddress := fun _ => 3
    addressString := fun _ => "0xab"
    hashHex := fun h => if h = 11 then "0x0b" else "0x16"
    formatTx := fun _ => "tx" }

/-- The demonstration node, except that the gas price query fails. -/
def noPriceEnv : Env :=
  { demoEnv with suggestGasPrice := fun _ => (none, some "connection refused") }

/-- The demonstration node, except that the balance-setting call fails. -/
def refusingEnv : Env :=
  { demoEnv with callContext := fun _ _ _ _ => some "connection refused" }

/-- The demonstration node, except that it reports the nonce 2^63. -/
def highNonceEnv : Env :=
  { demoEnv with nonceAt := fun _ _ => (9223372036854775808, none) }

/-! ## Unfolding the polling loops -/

theorem bind_apply {α β : Type} (m : Prog α) (f : α → Prog β) (t : Trace) :
    (m >>= f) t = Prog.andThen m f t := rfl

theorem pure_apply {α : Type} (a : α) (t : Trace) :
    (Pure.pure a : Prog α) t = (Outcome.ret a, t) := rfl

theorem ethCodeAt_apply (env : Env) (a : Address) (t : Trace) :
    ethCodeAt env a t = (Outcome.ret (env.codeAt (t.countP Event.isCodeAt) a), t ++ [Event.codeAt a]) :=
  rfl

theorem ethTransactionReceipt_apply (env : Env) (h : Hash) (t : Trace) :
    ethTransactionReceipt env h t =
      (Outcome.ret (env.transactionReceipt (t.countP Event.isTransactionReceipt) h),
        t ++ [Event.transactionReceipt h]) :=
  rfl

theorem lf_apply (env : Env) (msg : String) (t : Trace) :
    lf env msg t = (Outcome.ret (), t ++ [Event.lf (env.now (t.countP Event.isLf)) msg]) :=
  rfl

theorem timeSleep_apply (d : Nat) (t : Trace) :
    timeSleep d t = (Outcome.ret (), t ++ [Event.sleep d]) :=
  rfl

/-- One iteration of the readiness loop on an unsuccessful query. -/
theorem waitForContractLoop_retry (env : Env) (addr name : String) (fuel : Nat) (t : Trace)
    (h : (env.codeAt (t.countP Event.isCodeAt) (env.hexToAddress addr)).2 ≠ none ∨
      (env.codeAt (t.countP Event.isCodeAt) (env.hexToAddress addr)).1 = []) :
    waitForContractLoop env addr name (fuel + 1) false t =
      waitForContractLoop env addr name fuel false
        (t ++ [Event.codeAt (env.hexToAddress addr), Event.sleep Second,
          Event.lf (env.now (t.countP Event.isLf))
            ("waiting for contract [" ++ name ++ "] to be deployed")]) := by
  have h' : (env.codeAt (t.countP Event.isCodeAt) (env.hexToAddress addr)).2 ≠ none ∨
      (env.codeAt (t.countP Event.isCodeAt) (env.hexToAddress addr)).1.length = 0 := by
    rcases h with h | h
    · exact Or.inl h
    · exact Or.inr (by rw [h]; rfl)
  rw [waitForContractLoop]
  simp only [bind_apply, Prog.andThen, ethCodeAt_apply, if_pos h', timeSleep_apply, lf_apply]
  simp [Event.isLf, Second]

/-- The iteration of the readiness loop on a successful query. -/
theorem waitForContractLoop_found (env : Env) (addr name : String) (fuel : Nat) (t : Trace)
    (h : (env.codeAt (t.countP Event.isCodeAt) (env.hexToAddress addr)).2 = none ∧
      (env.codeAt (t.countP Event.isCodeAt) (env.hexToAddress addr)).1 ≠ []) :
    waitForContractLoop env addr name (fuel + 1) false t =
      (Outcome.ret (), t ++ [Event.codeAt (env.hexToAddress addr),
          Event.lf (env.now (t.countP Event.isLf)) ("found contract [" ++ name ++ "]")]) := by
  have h' : ¬ ((env.codeAt (t.countP Event.isCodeAt) (env.hexToAddress addr)).2 ≠ none ∨
      (env.codeAt (t.countP Event.isCodeAt) (env.hexToAddress addr)).1.length = 0) := by
    rintro (h1 | h1)
    · exact h1 h.1
    · exact h.2 (List.length_eq_zero.mp h1)
  rw [waitForContractLoop]
  simp only [bind_apply, Prog.andThen, ethCodeAt_apply, if_neg h', lf_apply]
  cases fuel <;> simp [waitForContractLoop, pure_apply, Event.isLf]

theorem retryEvents_zero (env : Env) (q : Event) (pr : String) (l : Nat) :
    retryEvents env q pr l 0 = [] := by
  simp [retryEvents]

theorem retryEvents_succ (env : Env) (q : Event) (pr : String) (l n : Nat) :
    retryEvents env q pr l (n + 1) =
      [q, Event.sleep Second, Event.lf (env.now l) pr] ++ retryEvents env q pr (l + 1) n := by
  simp only [retryEvents, List.range_succ_eq_map, List.flatMap_cons, List.flatMap_map,
    Nat.add_zero]
  congr 2
  funext k
  simp [Function.comp, Nat.add_comm, Nat.add_left_comm]

theorem pollEvents_zero (env : Env) (q : Event) (pr fo : String) (l : Nat) :
    pollEvents env q pr fo l 0 = [q, Event.lf (env.now l) fo] := by
  simp [pollEvents, retryEvents_zero]

theorem pollEvents_succ (env : Env) (q : Event) (pr fo : String) (l N : Nat) :
    pollEvents env q pr fo l (N + 1) =
      [q, Event.sleep Second, Event.lf (env.now l) pr] ++ pollEvents env q pr fo (l + 1) N := by
  simp [pollEvents, retryEvents_succ, Nat.add_comm, Nat.add_left_comm]

/-- Closed form of a run of the readiness loop: N unsuccessful queries, then a
successful one, with fuel for N+1 iterations. -/
theorem waitForContractLoop_run (env : Env) (addr name : String) :
    ∀ (N fuel : Nat) (t : Trace),
      (∀ k, k < N →
        (env.codeAt (t.countP Event.isCodeAt + k) (env.hexToAddress addr)).2 ≠ none ∨
        (env.codeAt (t.countP Event.isCodeAt + k) (env.hexToAddress addr)).1 = []) →
      ((env.codeAt (t.countP Event.isCodeAt + N) (env.hexToAddress addr)).2 = none ∧
        (env.codeAt (t.countP Event.isCodeAt + N) (env.hexToAddress addr)).1 ≠ []) →
      N < fuel →
      waitForContractLoop env addr name fuel false t =
        (Outcome.ret (), t ++ pollEvents env (Event.codeAt (env.hexToAddress addr))
          ("waiting for contract [" ++ name ++ "] to be deployed")
          ("found contract [" ++ name ++ "]") (t.countP Event.isLf) N) := by
  intro N
  induction N with
  | zero =>
    intro fuel t _ hok hfuel
    obtain ⟨f, rfl⟩ : ∃ f, fuel = f + 1 := ⟨fuel - 1, by omega⟩
    rw [waitForContractLoop_found env addr name f t (by simpa using hok), pollEvents_zero]
  | succ N ih =>
    intro fuel t hfail hok hfuel
    obtain ⟨f, rfl⟩ : ∃ f, fuel = f + 1 := ⟨fuel - 1, by omega⟩
    rw [waitForContractLoop_retry env addr name f t (by simpa using hfail 0 (Nat.succ_pos N))]
    rw [ih f _ ?_ ?_ (by omega), pollEvents_succ]
    · simp [Event.isLf, List.append_assoc]
    · intro k hk
      have := hfail (k + 1) (by omega)
      simpa [Event.isCodeAt, Nat.add_assoc, Nat.add_comm 1 k] using this
    · simpa [Event.isCodeAt, Nat.add_assoc, Nat.add_comm 1 N] using hok

theorem countP_pollEvents_codeAt (env : Env) (a : Address) (pr fo : String) (l N : Nat) :
    (pollEvents env (Event.codeAt a) pr fo l N).countP Event.isCodeAt = N + 1 := by
  induction N generalizing l with
  | zero => simp [pollEvents_zero, Event.isCodeAt]
  | succ N ih => simp [pollEvents_succ, ih, Event.isCodeAt]

theorem act_apply {α : Type} (e : Event) (a : α) (t : Trace) :
    act e a t = (Outcome.ret a, t ++ [e]) := rfl

theorem calls_apply (p : Event → Bool) (t : Trace) :
    calls p t = (Outcome.ret (t.countP p), t) := rfl

theorem logFatal_apply {α : Type} (msg : String) (t : Trace) :
    (logFatal msg : Prog α) t = (Outcome.fatal msg, t) := rfl

theorem goPanic_apply {α : Type} (msg : String) (t : Trace) :
    (goPanic msg : Prog α) t = (Outcome.panic msg, t) := rfl

theorem ifErr_none (h : Error → Prog Unit) (t : Trace) :
    ifErr none h t = (Outcome.ret (), t) := rfl

theorem ifErr_some (e : Error) (h : Error → Prog Unit) (t : Trace) :
    ifErr (some e) h t = h e t := rfl

theorem SetBalance_apply (env : Env) (a : Address) (b : Nat) (t : Trace) :
    SetBalance env a b t =
      (Outcome.ret
        (match env.callContext (t.countP Event.isCallContext) "anvil_setBalance" a (hexutilUint64 b) with
          | some e => some (env.addressString a ++ ", " ++ toString b ++ ": " ++ e)
          | none => none),
        t ++ [Event.callContext "anvil_setBalance" a (hexutilUint64 b)]) := by
  simp only [SetBalance, bind_apply, Prog.andThen, calls_apply, act_apply]
  cases env.callContext (t.countP Event.isCallContext) "anvil_setBalance" a (hexutilUint64 b) <;> rfl

theorem ethSuggestGasPrice_apply (env : Env) (t : Trace) :
    ethSuggestGasPrice env t =
      (Outcome.ret (env.suggestGasPrice (t.countP Event.isSuggestGasPrice)),
        t ++ [Event.suggestGasPrice]) := rfl

theorem ethChainID_apply (env : Env) (t : Trace) :
    ethChainID env t =
      (Outcome.ret (env.chainID (t.countP Event.isChainID)), t ++ [Event.chainID]) := rfl

theorem ethSendTransaction_apply (env : Env) (tx : Option Transaction) (t : Trace) :
    ethSendTransaction env tx t =
      (Outcome.ret (env.sendTransaction (t.countP Event.isSendTransaction) tx),
        t ++ [Event.sendTransaction tx]) := rfl

theorem ethNonceAt_apply (env : Env) (a : Address) (t : Trace) :
    ethNonceAt env a t =
      (Outcome.ret (uint64 (env.nonceAt (t.countP Event.isNonceAt) a).1,
          (env.nonceAt (t.countP Event.isNonceAt) a).2),
        t ++ [Event.nonceAt a]) := rfl

theorem println_apply (msg : String) (t : Trace) :
    println msg t = (Outcome.ret (), t ++ [Event.println msg]) := rfl

theorem portalDepositTransaction_apply (env : Env) (opts : TransactOpts) (a : Address)
    (v : Option Int) (g : Nat) (c : Bool) (d : Bytes) (t : Trace) :
    portalDepositTransaction env opts a v g c d t =
      (Outcome.ret (env.depositTransaction (t.countP Event.isDepositTransaction) opts a v g c d),
        t ++ [Event.depositTransaction opts a v g c d]) := rfl

theorem deref_some (x : Transaction) (t : Trace) : deref (some x) t = (Outcome.ret x, t) := rfl

theorem deref_none (t : Trace) :
    deref none t =
      (Outcome.panic "runtime error: invalid memory address or nil pointer dereference", t) := rfl


/-- Every run of the readiness loop: either some query within the fuel is the
first successful one and the loop returns after it, or all queries the fuel
allows are unsuccessful and the loop is still going. -/
theorem waitForContractLoop_cases (env : Env) (addr name : String) :
    ∀ (fuel : Nat) (t : Trace),
      (∃ N, N < fuel ∧
        (∀ k, k < N →
          (env.codeAt (t.countP Event.isCodeAt + k) (env.hexToAddress addr)).2 ≠ none ∨
          (env.codeAt (t.countP Event.isCodeAt + k) (env.hexToAddress addr)).1 = []) ∧
        ((env.codeAt (t.countP Event.isCodeAt + N) (env.hexToAddress addr)).2 = none ∧
          (env.codeAt (t.countP Event.isCodeAt + N) (env.hexToAddress addr)).1 ≠ []) ∧
        waitForContractLoop env addr name fuel false t =
          (Outcome.ret (), t ++ pollEvents env (Event.codeAt (env.hexToAddress addr))
            ("waiting for contract [" ++ name ++ "] to be deployed")
            ("found contract [" ++ name ++ "]") (t.countP Event.isLf) N)) ∨
      ((∀ k, k < fuel →
          (env.codeAt (t.countP Event.isCodeAt + k) (env.hexToAddress addr)).2 ≠ none ∨
          (env.codeAt (t.countP Event.isCodeAt + k) (env.hexToAddress addr)).1 = []) ∧
        waitForContractLoop env addr name fuel false t =
          (Outcome.running, t ++ retryEvents env (Event.codeAt (env.hexToAddress addr))
            ("waiting for contract [" ++ name ++ "] to be deployed") (t.countP Event.isLf) fuel)) := by
  intro fuel
  induction fuel with
  | zero =>
    intro t
    refine Or.inr ⟨fun k hk => absurd hk (Nat.not_lt_zero k), ?_⟩
    simp [waitForContractLoop, outOfFuel, retryEvents_zero]
  | succ f ih =>
    intro t
    by_cases h0 : (env.codeAt (t.countP Event.isCodeAt) (env.hexToAddress addr)).2 ≠ none ∨
        (env.codeAt (t.countP Event.isCodeAt) (env.hexToAddress addr)).1 = []
    · have hc : List.countP Event.isCodeAt
          (t ++ [Event.codeAt (env.hexToAddress addr), Event.sleep Second,
            Event.lf (env.now (t.countP Event.isLf))
              ("waiting for contract [" ++ name ++ "] to be deployed")]) =
          t.countP Event.isCodeAt + 1 := by
        simp [Event.isCodeAt]
      have hl : List.countP Event.isLf
          (t ++ [Event.codeAt (env.hexToAddress addr), Event.sleep Second,
            Event.lf (env.now (t.countP Event.isLf))
              ("waiting for contract [" ++ name ++ "] to be deployed")]) =
          t.countP Event.isLf + 1 := by
        simp [Event.isLf]
      have hshift : ∀ k, t.countP Event.isCodeAt + 1 + k = t.countP Event.isCodeAt + (k + 1) := by
        intro k; omega
      rw [waitForContractLoop_retry env addr name f t h0]
      rcases ih (t ++ [Event.codeAt (env.hexToAddress addr), Event.sleep Second,
            Event.lf (env.now (t.countP Event.isLf))
              ("waiting for contract [" ++ name ++ "] to be deployed")]) with
        ⟨N, hN, hfail, hok, hrun⟩ | ⟨hfail, hrun⟩
      · refine Or.inl ⟨N + 1, by omega, ?_, ?_, ?_⟩
        · intro k hk
          cases k with
          | zero => simpa using h0
          | succ k =>
            have := hfail k (by omega)
            rwa [hc, hshift] at this
        · rwa [hc, hshift] at hok
        · rw [hrun, hl, pollEvents_succ, List.append_assoc]
      · refine Or.inr ⟨?_, ?_⟩
        · intro k hk
          cases k with
          | zero => simpa using h0
          | succ k =>
            have := hfail k (by omega)
            rwa [hc, hshift] at this
        · rw [hrun, hl, retryEvents_succ, List.append_assoc]
    · have h1 : (env.codeAt (t.countP Event.isCodeAt) (env.hexToAddress addr)).2 = none ∧
          (env.codeAt (t.countP Event.isCodeAt) (env.hexToAddress addr)).1 ≠ [] := by
        constructor
        · by_contra hne
          exact h0 (Or.inl hne)
        · intro he
          exact h0 (Or.inr he)
      refine Or.inl ⟨0, Nat.succ_pos f, fun k hk => absurd hk (Nat.not_lt_zero k), by simpa using h1, ?_⟩
      rw [waitForContractLoop_found env addr name f t h1, pollEvents_zero]

/-- One iteration of the receipt loop on an unsuccessful query. -/
theorem waitForReceiptLoop_retry (env : Env) (h : Hash) (name : String) (fuel : Nat) (t : Trace)
    (hr : (env.transactionReceipt (t.countP Event.isTransactionReceipt) h).2 ≠ none ∨
      (env.transactionReceipt (t.countP Event.isTransactionReceipt) h).1 = none) :
    waitForReceiptLoop env h name (fuel + 1) false t =
      waitForReceiptLoop env h name fuel false
        (t ++ [Event.transactionReceipt h, Event.sleep Second,
          Event.lf (env.now (t.countP Event.isLf))
            ("waiting for receipt [" ++ name ++ "] to be mined")]) := by
  rw [waitForReceiptLoop]
  simp only [bind_apply, Prog.andThen, ethTransactionReceipt_apply, if_pos hr, timeSleep_apply,
    lf_apply]
  simp [Event.isLf, Second]

/-- The iteration of the receipt loop on a successful query. -/
theorem waitForReceiptLoop_found (env : Env) (h : Hash) (name : String) (fuel : Nat) (t : Trace)
    (hr : (env.transactionReceipt (t.countP Event.isTransactionReceipt) h).2 = none ∧
      (env.transactionReceipt (t.countP Event.isTransactionReceipt) h).1 ≠ none) :
    waitForReceiptLoop env h name (fuel + 1) false t =
      (Outcome.ret (env.transactionReceipt (t.countP Event.isTransactionReceipt) h).1,
        t ++ [Event.transactionReceipt h,
          Event.lf (env.now (t.countP Event.isLf)) ("found receipt [" ++ name ++ "]")]) := by
  have hr' : ¬ ((env.transactionReceipt (t.countP Event.isTransactionReceipt) h).2 ≠ none ∨
      (env.transactionReceipt (t.countP Event.isTransactionReceipt) h).1 = none) := by
    rintro (h1 | h1)
    · exact h1 hr.1
    · exact hr.2 h1
  rw [waitForReceiptLoop]
  simp only [bind_apply, Prog.andThen, ethTransactionReceipt_apply, if_neg hr', lf_apply]
  simp [pure_apply, Event.isLf]

/-- Every run of the receipt loop: either some query within the fuel is the
first successful one and the loop returns its receipt, or all queries the fuel
allows are unsuccessful and the loop is still going. -/
theorem waitForReceiptLoop_cases (env : Env) (h : Hash) (name : String) :
    ∀ (fuel : Nat) (t : Trace),
      (∃ N, N < fuel ∧
        (∀ k, k < N →
          (env.transactionReceipt (t.countP Event.isTransactionReceipt + k) h).2 ≠ none ∨
          (env.transactionReceipt (t.countP Event.isTransactionReceipt + k) h).1 = none) ∧
        ((env.transactionReceipt (t.countP Event.isTransactionReceipt + N) h).2 = none ∧
          (env.transactionReceipt (t.countP Event.isTransactionReceipt + N) h).1 ≠ none) ∧
        waitForReceiptLoop env h name fuel false t =
          (Outcome.ret (env.transactionReceipt (t.countP Event.isTransactionReceipt + N) h).1,
            t ++ pollEvents env (Event.transactionReceipt h)
              ("waiting for receipt [" ++ name ++ "] to be mined")
              ("found receipt [" ++ name ++ "]") (t.countP Event.isLf) N)) ∨
      ((∀ k, k < fuel →
          (env.transactionReceipt (t.countP Event.isTransactionReceipt + k) h).2 ≠ none ∨
          (env.transactionReceipt (t.countP Event.isTransactionReceipt + k) h).1 = none) ∧
        waitForReceiptLoop env h name fuel false t =
          (Outcome.running, t ++ retryEvents env (Event.transactionReceipt h)
            ("waiting for receipt [" ++ name ++ "] to be mined") (t.countP Event.isLf) fuel)) := by
  intro fuel
  induction fuel with
  | zero =>
    intro t
    refine Or.inr ⟨fun k hk => absurd hk (Nat.not_lt_zero k), ?_⟩
    simp [waitForReceiptLoop, outOfFuel, retryEvents_zero]
  | succ f ih =>
    intro t
    by_cases h0 : (env.transactionReceipt (t.countP Event.isTransactionReceipt) h).2 ≠ none ∨
        (env.transactionReceipt (t.countP Event.isTransactionReceipt) h).1 = none
    · have hc : List.countP Event.isTransactionReceipt
          (t ++ [Event.transactionReceipt h, Event.sleep Second,
            Event.lf (env.now (t.countP Event.isLf))
              ("waiting for receipt [" ++ name ++ "] to be mined")]) =
          t.countP Event.isTransactionReceipt + 1 := by
        simp [Event.isTransactionReceipt]
      have hl : List.countP Event.isLf
          (t ++ [Event.transactionReceipt h, Event.sleep Second,
            Event.lf (env.now (t.countP Event.isLf))
              ("waiting for receipt [" ++ name ++ "] to be mined")]) =
          t.countP Event.isLf + 1 := by
        simp [Event.isLf]
      have hshift : ∀ k, t.countP Event.isTransactionReceipt + 1 + k =
          t.countP Event.isTransactionReceipt + (k + 1) := by
        intro k; omega
      rw [waitForReceiptLoop_retry env h name f t h0]
      rcases ih (t ++ [Event.transactionReceipt h, Event.sleep Second,
            Event.lf (env.now (t.countP Event.isLf))
              ("waiting for receipt [" ++ name ++ "] to be mined")]) with
        ⟨N, hN, hfail, hok, hrun⟩ | ⟨hfail, hrun⟩
      · refine Or.inl ⟨N + 1, by omega, ?_, ?_, ?_⟩
        · intro k hk
          cases k with
          | zero => simpa using h0
          | succ k =>
            have := hfail k (by omega)
            rwa [hc, hshift] at this
        · rwa [hc, hshift] at hok
        · rw [hrun, hl, pollEvents_succ, List.append_assoc, hc, hshift]
      · refine Or.inr ⟨?_, ?_⟩
        · intro k hk
          cases k with
          | zero => simpa using h0
          | succ k =>
            have := hfail k (by omega)
            rwa [hc, hshift] at this
        · rw [hrun, hl, retryEvents_succ, List.append_assoc]
    · have h1 : (env.transactionReceipt (t.countP Event.isTransactionReceipt) h).2 = none ∧
          (env.transactionReceipt (t.countP Event.isTransactionReceipt) h).1 ≠ none := by
        constructor
        · by_contra hne
          exact h0 (Or.inl hne)
        · intro he
          exact h0 (Or.inr he)
      refine Or.inl ⟨0, Nat.succ_pos f, fun k hk => absurd hk (Nat.not_lt_zero k), by simpa using h1, ?_⟩
      rw [waitForReceiptLoop_found env h name f t h1, pollEvents_zero]
      rfl

theorem countP_retryEvents (env : Env) (p : Event → Bool) (q : Event) (pr : String) (l n : Nat) :
    (retryEvents env q pr l n).countP p =
      n * ((if p q then 1 else 0) + (if p (Event.sleep Second) then 1 else 0))
        + ((List.range n).filter (fun k => p (Event.lf (env.now (l + k)) pr))).length := by
  induction n generalizing l with
  | zero => simp [retryEvents_zero]
  | succ n ih =>
    rw [retryEvents_succ, List.countP_append, ih, List.range_succ_eq_map]
    simp only [List.countP_cons, List.countP_nil, List.filter_cons, List.filter_map, List.length_map,
      Nat.add_zero, Function.comp_def, Nat.zero_add]
    have hfun : (fun k => p (Event.lf (env.now (l + 1 + k)) pr)) =
        (fun k => p (Event.lf (env.now (l + Nat.succ k)) pr)) := by
      funext k
      rw [Nat.add_assoc, Nat.add_comm 1 k]
    rw [hfun]
    by_cases h1 : p q = true <;> by_cases h2 : p (Event.sleep Second) = true <;>
      by_cases h3 : p (Event.lf (env.now l) pr) = true <;>
      simp [h1, h2, h3, Nat.add_mul] <;> omega

theorem waiting_ne_found_contract (name : String) :
    "waiting for contract [" ++ name ++ "] to be deployed" ≠ "found contract [" ++ name ++ "]" := by
  intro h
  have h2 := congrArg (fun s => s.data.head?) h
  simp at h2

theorem waitForContract_cases (env : Env) (addr name : String) (fuel : Nat) (t : Trace)
    (w : Outcome Unit × Trace) (hw : waitForContract env fuel addr name t = w) :
      (∃ N, N < fuel ∧
        (∀ k, k < N →
          (env.codeAt (t.countP Event.isCodeAt + k) (env.hexToAddress addr)).2 ≠ none ∨
          (env.codeAt (t.countP Event.isCodeAt + k) (env.hexToAddress addr)).1 = []) ∧
        ((env.codeAt (t.countP Event.isCodeAt + N) (env.hexToAddress addr)).2 = none ∧
          (env.codeAt (t.countP Event.isCodeAt + N) (env.hexToAddress addr)).1 ≠ []) ∧
        w = (Outcome.ret (), t ++ pollEvents env (Event.codeAt (env.hexToAddress addr))
            ("waiting for contract [" ++ name ++ "] to be deployed")
            ("found contract [" ++ name ++ "]") (t.countP Event.isLf) N)) ∨
      ((∀ k, k < fuel →
          (env.codeAt (t.countP Event.isCodeAt + k) (env.hexToAddress addr)).2 ≠ none ∨
          (env.codeAt (t.countP Event.isCodeAt + k) (env.hexToAddress addr)).1 = []) ∧
        w = (Outcome.running, t ++ retryEvents env (Event.codeAt (env.hexToAddress addr))
            ("waiting for contract [" ++ name ++ "] to be deployed") (t.countP Event.isLf) fuel)) := by
  subst hw
  exact waitForContractLoop_cases env addr name fuel t

theorem waitForReceipt_cases (env : Env) (h : Hash) (name : String) (fuel : Nat) (t : Trace)
    (w : Outcome (Option Receipt) × Trace) (hw : waitForReceipt env fuel h name t = w) :
      (∃ N, N < fuel ∧
        (∀ k, k < N →
          (env.transactionReceipt (t.countP Event.isTransactionReceipt + k) h).2 ≠ none ∨
          (env.transactionReceipt (t.countP Event.isTransactionReceipt + k) h).1 = none) ∧
        ((env.transactionReceipt (t.countP Event.isTransactionReceipt + N) h).2 = none ∧
          (env.transactionReceipt (t.countP Event.isTransactionReceipt + N) h).1 ≠ none) ∧
        w = (Outcome.ret (env.transactionReceipt (t.countP Event.isTransactionReceipt + N) h).1,
            t ++ pollEvents env (Event.transactionReceipt h)
              ("waiting for receipt [" ++ name ++ "] to be mined")
              ("found receipt [" ++ name ++ "]") (t.countP Event.isLf) N)) ∨
      ((∀ k, k < fuel →
          (env.transactionReceipt (t.countP Event.isTransactionReceipt + k) h).2 ≠ none ∨
          (env.transactionReceipt (t.countP Event.isTransactionReceipt + k) h).1 = none) ∧
        w = (Outcome.running, t ++ retryEvents env (Event.transactionReceipt h)
            ("waiting for receipt [" ++ name ++ "] to be mined") (t.countP Event.isLf) fuel)) := by
  subst hw
  exact waitForReceiptLoop_cases env h name fuel t

theorem countP_retryEvents_eq_zero (env : Env) (p : Event → Bool) (q : Event) (pr : String)
    (l n : Nat) (hq : p q = false) (hs : p (Event.sleep Second) = false)
    (hl : ∀ ts m, p (Event.lf ts m) = false) :
    (retryEvents env q pr l n).countP p = 0 := by
  rw [countP_retryEvents]
  simp [hq, hs, hl]

theorem countP_pollEvents_eq_zero (env : Env) (p : Event → Bool) (q : Event) (pr fo : String)
    (l n : Nat) (hq : p q = false) (hs : p (Event.sleep Second) = false)
    (hl : ∀ ts m, p (Event.lf ts m) = false) :
    (pollEvents env q pr fo l n).countP p = 0 := by
  rw [pollEvents, List.countP_append, countP_retryEvents_eq_zero env p q pr l n hq hs hl]
  simp [hq, hl]

theorem main_cases (env : Env) (fuel : Nat) :
    ∃ o t, main env fuel [] = (o, t) ∧
    ((∃ k, k ≤ 7 ∧ t = (headEvents env).take k ∧ o.isAbort = true ∧
        (4 < k → (env.suggestGasPrice 0).2 = none) ∧ (5 < k → (env.chainID 0).2 = none) ∧
        (k = 7 → env.sendTransaction 0 (runSignedTx env) ≠ none ∨ runSignedTx env = none)) ∨
     (∃ sent ts rest,
      (env.suggestGasPrice 0).2 = none ∧ (env.chainID 0).2 = none ∧
      runSignedTx env = some sent ∧ env.sendTransaction 0 (some sent) = none ∧
      t = headEvents env ++ Event.lf ts ("tx sent: " ++ env.hashHex sent.hash) :: rest ∧
      ((∃ l, rest = retryEvents env (Event.codeAt (bridgeAddress env))
            ("waiting for contract [" ++ "OptimismPortal" ++ "] to be deployed") l fuel ∧
          o = Outcome.running) ∨
       (∃ l N tail, N < fuel ∧
          (∀ k, k < N → (env.codeAt k (bridgeAddress env)).2 ≠ none ∨
            (env.codeAt k (bridgeAddress env)).1 = []) ∧
          (env.codeAt N (bridgeAddress env)).2 = none ∧
          (env.codeAt N (bridgeAddress env)).1 ≠ [] ∧
          rest = pollEvents env (Event.codeAt (bridgeAddress env))
            ("waiting for contract [" ++ "OptimismPortal" ++ "] to be deployed")
            ("found contract [" ++ "OptimismPortal" ++ "]") l N ++ tail ∧
          ((∃ j, j ≤ 5 ∧ tail = (bridgeEvents env).take j ∧ o.isAbort = true) ∨
           (∃ ts2, tail = bridgeEvents env ++
              [Event.lf ts2 ("deposit tx: " ++ env.formatTx (runDeposit env).1)] ∧
              o.isAbort = true) ∨
           (∃ dep ts2 rest2, runDeposit env = (some dep, none) ∧
              tail = bridgeEvents env ++
                Event.lf ts2 ("deposit tx sent: " ++ env.hashHex dep.hash) :: rest2 ∧
              ((∃ l2, rest2 = retryEvents env (Event.transactionReceipt dep.hash)
                    ("waiting for receipt [" ++ "depositTx" ++ "] to be mined") l2 fuel ∧
                  o = Outcome.running) ∨
               (∃ l2 M fin, M < fuel ∧
                  (env.transactionReceipt M dep.hash).2 = none ∧
                  (env.transactionReceipt M dep.hash).1 ≠ none ∧
                  rest2 = pollEvents env (Event.transactionReceipt dep.hash)
                    ("waiting for receipt [" ++ "depositTx" ++ "] to be mined")
                    ("found receipt [" ++ "depositTx" ++ "]") l2 M ++ fin ∧
                  ((fin = [Event.marshalIndent (env.transactionReceipt M dep.hash).1] ∧
                      o.isAbort = true) ∨
                   (∃ ts3, fin = [Event.marshalIndent (env.transactionReceipt M dep.hash).1,
                        Event.lf ts3 ("deposit receipt:\n\n" ++
                          (env.marshalIndent (env.transactionReceipt M dep.hash).1).1)] ∧
                      o = Outcome.ret ())))))))))) := by
  simp only [main, NewAnvilClient, bind_apply, Prog.andThen, act_apply, List.nil_append]
  rcases hd : env.dial "http://localhost:8888" with _ | e
  swap
  · simp only [ifErr_some, logFatal_apply]
    exact ⟨_, _, rfl, Or.inl ⟨1, by omega, rfl, rfl, by simp, by simp, by simp⟩⟩
  simp only [ifErr_none]
  rcases hk : env.generateKey.2 with _ | e
  swap
  · simp only [ifErr_some, logFatal_apply]
    exact ⟨_, _, rfl, Or.inl ⟨2, by omega, rfl, rfl, by simp, by simp, by simp⟩⟩
  simp only [ifErr_none, SetBalance_apply, List.countP_cons, List.countP_nil, List.countP_append, List.append_assoc, List.cons_append,
    List.nil_append, Event.isCallContext, Event.isSuggestGasPrice, Event.isChainID,
    Event.isSendTransaction, Event.isCodeAt, Event.isTransactionReceipt, Event.isNonceAt,
    Event.isDepositTransaction, Event.isLf, Bool.false_eq_true, if_false, if_true, Nat.add_zero,
    Nat.zero_add]
  rcases hb : env.callContext 0 "anvil_setBalance"
      (env.pubkeyToAddress env.generateKey.1) (hexutilUint64 seedBalance) with _ | e
  swap
  · simp only [ifErr_some, logFatal_apply]
    exact ⟨_, _, rfl, Or.inl ⟨3, by omega, rfl, rfl, by simp, by simp, by simp⟩⟩
  simp only [ifErr_none, ethSuggestGasPrice_apply, List.countP_cons, List.countP_nil, List.countP_append, List.append_assoc, List.cons_append,
    List.nil_append, Event.isCallContext, Event.isSuggestGasPrice, Event.isChainID,
    Event.isSendTransaction, Event.isCodeAt, Event.isTransactionReceipt, Event.isNonceAt,
    Event.isDepositTransaction, Event.isLf, Bool.false_eq_true, if_false, if_true, Nat.add_zero,
    Nat.zero_add]
  rcases hg : (env.suggestGasPrice 0).2 with _ | e
  swap
  · simp only [ifErr_some, goPanic_apply]
    exact ⟨_, _, rfl, Or.inl ⟨4, by omega, rfl, rfl, by simp, by simp, by simp⟩⟩
  simp only [ifErr_none, ethChainID_apply, List.countP_cons, List.countP_nil, List.countP_append, List.append_assoc, List.cons_append,
    List.nil_append, Event.isCallContext, Event.isSuggestGasPrice, Event.isChainID,
    Event.isSendTransaction, Event.isCodeAt, Event.isTransactionReceipt, Event.isNonceAt,
    Event.isDepositTransaction, Event.isLf, Bool.false_eq_true, if_false, if_true, Nat.add_zero,
    Nat.zero_add]
  rcases hc : (env.chainID 0).2 with _ | e
  swap
  · simp only [ifErr_some, goPanic_apply]
    exact ⟨_, _, rfl, Or.inl ⟨5, by omega, rfl, rfl, by simp, by simp, by simp⟩⟩
  simp only [ifErr_none, List.countP_cons, List.countP_nil, List.countP_append, List.append_assoc, List.cons_append,
    List.nil_append, Event.isCallContext, Event.isSuggestGasPrice, Event.isChainID,
    Event.isSendTransaction, Event.isCodeAt, Event.isTransactionReceipt, Event.isNonceAt,
    Event.isDepositTransaction, Event.isLf, Bool.false_eq_true, if_false, if_true, Nat.add_zero,
    Nat.zero_add]
  rcases hs : (env.signTx (transferTx (env.suggestGasPrice 0).1) (env.chainID 0).1
      env.generateKey.1).2 with _ | e
  swap
  · simp only [ifErr_some, goPanic_apply]
    exact ⟨_, _, rfl, Or.inl ⟨6, by omega, rfl, rfl, by simp, by simp, by simp⟩⟩
  simp only [ifErr_none, ethSendTransaction_apply, List.countP_cons, List.countP_nil, List.countP_append, List.append_assoc, List.cons_append,
    List.nil_append, Event.isCallContext, Event.isSuggestGasPrice, Event.isChainID,
    Event.isSendTransaction, Event.isCodeAt, Event.isTransactionReceipt, Event.isNonceAt,
    Event.isDepositTransaction, Event.isLf, Bool.false_eq_true, if_false, if_true, Nat.add_zero,
    Nat.zero_add]
  rcases hsend : env.sendTransaction 0 (env.signTx (transferTx (env.suggestGasPrice 0).1)
      (env.chainID 0).1 env.generateKey.1).1 with _ | e
  swap
  · simp only [ifErr_some, goPanic_apply]
    refine ⟨_, _, rfl, Or.inl ⟨7, by omega, rfl, rfl, by simp, by simp, fun _ => Or.inl ?_⟩⟩
    show env.sendTransaction 0 (env.signTx (transferTx (env.suggestGasPrice 0).1)
      (env.chainID 0).1 env.generateKey.1).1 ≠ none
    rw [hsend]
    simp
  simp only [ifErr_none]
  rcases hs1 : (env.signTx (transferTx (env.suggestGasPrice 0).1) (env.chainID 0).1
      env.generateKey.1).1 with _ | sent
  · simp only [deref_none]
    refine ⟨_, _, rfl, Or.inl ⟨7, by omega, ?_, rfl, by simp, by simp, fun _ => Or.inr hs1⟩⟩
    simp [headEvents, runSignedTx, runPrice, runChainID, runKey, runAddress, hs1]
  simp only [deref_some, lf_apply, List.countP_cons, List.countP_nil, List.countP_append, List.append_assoc, List.cons_append,
    List.nil_append, Event.isCallContext, Event.isSuggestGasPrice, Event.isChainID,
    Event.isSendTransaction, Event.isCodeAt, Event.isTransactionReceipt, Event.isNonceAt,
    Event.isDepositTransaction, Event.isLf, Bool.false_eq_true, if_false, if_true, Nat.add_zero,
    Nat.zero_add, headEvents, runSignedTx, runPrice, runChainID,
    runKey, hs1]
  rw [hs1] at hsend
  generalize hW : waitForContract env fuel depositAddress "OptimismPortal" _ = w
  rcases waitForContract_cases _ _ _ _ _ _ hW with ⟨N, hN, hfail, hok, rfl⟩ | ⟨hfail, rfl⟩
  swap
  · exact ⟨_, _, rfl, Or.inr ⟨sent, _, _, trivial, trivial, rfl, hsend, rfl,
      Or.inl ⟨_, rfl, rfl⟩⟩⟩
  simp only [List.countP_cons, List.countP_nil, List.countP_append, List.append_assoc, List.cons_append,
    List.nil_append, Event.isCallContext, Event.isSuggestGasPrice, Event.isChainID,
    Event.isSendTransaction, Event.isCodeAt, Event.isTransactionReceipt, Event.isNonceAt,
    Event.isDepositTransaction, Event.isLf, Bool.false_eq_true, if_false, if_true, Nat.add_zero,
    Nat.zero_add] at hfail hok
  have cn : ∀ l, List.countP Event.isNonceAt
      (pollEvents env (Event.codeAt (env.hexToAddress depositAddress))
        ("waiting for contract [" ++ "OptimismPortal" ++ "] to be deployed")
        ("found contract [" ++ "OptimismPortal" ++ "]") l N) = 0 :=
    fun l => countP_pollEvents_eq_zero _ _ _ _ _ _ _ rfl rfl (fun _ _ => rfl)
  have cd : ∀ l, List.countP Event.isDepositTransaction
      (pollEvents env (Event.codeAt (env.hexToAddress depositAddress))
        ("waiting for contract [" ++ "OptimismPortal" ++ "] to be deployed")
        ("found contract [" ++ "OptimismPortal" ++ "]") l N) = 0 :=
    fun l => countP_pollEvents_eq_zero _ _ _ _ _ _ _ rfl rfl (fun _ _ => rfl)
  have cr : ∀ l, List.countP Event.isTransactionReceipt
      (pollEvents env (Event.codeAt (env.hexToAddress depositAddress))
        ("waiting for contract [" ++ "OptimismPortal" ++ "] to be deployed")
        ("found contract [" ++ "OptimismPortal" ++ "]") l N) = 0 :=
    fun l => countP_pollEvents_eq_zero _ _ _ _ _ _ _ rfl rfl (fun _ _ => rfl)
  clear hW
  rcases hp : env.newOptimismPortal (env.hexToAddress depositAddress) with _ | e
  swap
  · simp only [ifErr_some, goPanic_apply, cn, cd, cr, List.countP_cons, List.countP_nil, List.countP_append, List.append_assoc, List.cons_append,
    List.nil_append, Event.isCallContext, Event.isSuggestGasPrice, Event.isChainID,
    Event.isSendTransaction, Event.isCodeAt, Event.isTransactionReceipt, Event.isNonceAt,
    Event.isDepositTransaction, Event.isLf, Bool.false_eq_true, if_false, if_true, Nat.add_zero,
    Nat.zero_add]
    exact ⟨_, _, rfl, Or.inr ⟨sent, _, _, trivial, trivial, rfl, hsend, rfl,
      Or.inr ⟨_, N, _, hN, hfail, hok.1, hok.2, rfl, Or.inl ⟨1, by omega, rfl, rfl⟩⟩⟩⟩
  simp only [ifErr_none, println_apply, ethNonceAt_apply, cn, List.countP_cons, List.countP_nil, List.countP_append, List.append_assoc, List.cons_append,
    List.nil_append, Event.isCallContext, Event.isSuggestGasPrice, Event.isChainID,
    Event.isSendTransaction, Event.isCodeAt, Event.isTransactionReceipt, Event.isNonceAt,
    Event.isDepositTransaction, Event.isLf, Bool.false_eq_true, if_false, if_true, Nat.add_zero,
    Nat.zero_add]
  rcases hn : (env.nonceAt 0 (env.pubkeyToAddress env.generateKey.1)).2 with _ | e
  swap
  · simp only [ifErr_some, goPanic_apply, cn, cd, cr, List.countP_cons, List.countP_nil, List.countP_append, List.append_assoc, List.cons_append,
    List.nil_append, Event.isCallContext, Event.isSuggestGasPrice, Event.isChainID,
    Event.isSendTransaction, Event.isCodeAt, Event.isTransactionReceipt, Event.isNonceAt,
    Event.isDepositTransaction, Event.isLf, Bool.false_eq_true, if_false, if_true, Nat.add_zero,
    Nat.zero_add]
    exact ⟨_, _, rfl, Or.inr ⟨sent, _, _, trivial, trivial, rfl, hsend, rfl,
      Or.inr ⟨_, N, _, hN, hfail, hok.1, hok.2, rfl, Or.inl ⟨3, by omega, rfl, rfl⟩⟩⟩⟩
  simp only [ifErr_none, println_apply, portalDepositTransaction_apply, cd, List.countP_cons, List.countP_nil, List.countP_append, List.append_assoc, List.cons_append,
    List.nil_append, Event.isCallContext, Event.isSuggestGasPrice, Event.isChainID,
    Event.isSendTransaction, Event.isCodeAt, Event.isTransactionReceipt, Event.isNonceAt,
    Event.isDepositTransaction, Event.isLf, Bool.false_eq_true, if_false, if_true, Nat.add_zero,
    Nat.zero_add]
  rcases hdep1 : (env.depositTransaction 0
      (depositOpts (env.pubkeyToAddress env.generateKey.1) (env.chainID 0).1
        (env.suggestGasPrice 0).1 env.generateKey.1
        (uint64 (env.nonceAt 0 (env.pubkeyToAddress env.generateKey.1)).1))
      (env.pubkeyToAddress env.generateKey.1) depositValue depositGasLimit false []).2 with _ | e
  swap
  · simp only [ifErr_some, goPanic_apply, bind_apply, Prog.andThen, lf_apply, cn, cd, cr,
      List.countP_cons, List.countP_nil, List.countP_append, List.append_assoc, List.cons_append,
    List.nil_append, Event.isCallContext, Event.isSuggestGasPrice, Event.isChainID,
    Event.isSendTransaction, Event.isCodeAt, Event.isTransactionReceipt, Event.isNonceAt,
    Event.isDepositTransaction, Event.isLf, Bool.false_eq_true, if_false, if_true, Nat.add_zero,
    Nat.zero_add]
    exact ⟨_, _, rfl, Or.inr ⟨sent, _, _, trivial, trivial, rfl, hsend, rfl,
      Or.inr ⟨_, N, _, hN, hfail, hok.1, hok.2, rfl, Or.inr (Or.inl ⟨_, rfl, rfl⟩)⟩⟩⟩
  simp only [ifErr_none]
  rcases hdep2 : (env.depositTransaction 0
      (depositOpts (env.pubkeyToAddress env.generateKey.1) (env.chainID 0).1
        (env.suggestGasPrice 0).1 env.generateKey.1
        (uint64 (env.nonceAt 0 (env.pubkeyToAddress env.generateKey.1)).1))
      (env.pubkeyToAddress env.generateKey.1) depositValue depositGasLimit false []).1 with _ | dep
  · simp only [deref_none, cn, cd, cr, List.countP_cons, List.countP_nil, List.countP_append, List.append_assoc, List.cons_append,
    List.nil_append, Event.isCallContext, Event.isSuggestGasPrice, Event.isChainID,
    Event.isSendTransaction, Event.isCodeAt, Event.isTransactionReceipt, Event.isNonceAt,
    Event.isDepositTransaction, Event.isLf, Bool.false_eq_true, if_false, if_true, Nat.add_zero,
    Nat.zero_add]
    exact ⟨_, _, rfl, Or.inr ⟨sent, _, _, trivial, trivial, rfl, hsend, rfl,
      Or.inr ⟨_, N, _, hN, hfail, hok.1, hok.2, rfl, Or.inl ⟨5, by omega, rfl, rfl⟩⟩⟩⟩
  have hrd : runDeposit env = (some dep, none) := Prod.ext hdep2 hdep1
  simp only [deref_some, lf_apply, cn, cd, cr, List.countP_cons, List.countP_nil, List.countP_append, List.append_assoc, List.cons_append,
    List.nil_append, Event.isCallContext, Event.isSuggestGasPrice, Event.isChainID,
    Event.isSendTransaction, Event.isCodeAt, Event.isTransactionReceipt, Event.isNonceAt,
    Event.isDepositTransaction, Event.isLf, Bool.false_eq_true, if_false, if_true, Nat.add_zero,
    Nat.zero_add]
  generalize hR : waitForReceipt env fuel dep.hash "depositTx" _ = w
  rcases waitForReceipt_cases _ _ _ _ _ _ hR with ⟨M, hM, hfailM, hokM, rfl⟩ | ⟨hfailM, rfl⟩
  swap
  · simp only [cn, cd, cr, List.countP_cons, List.countP_nil, List.countP_append, List.append_assoc, List.cons_append,
    List.nil_append, Event.isCallContext, Event.isSuggestGasPrice, Event.isChainID,
    Event.isSendTransaction, Event.isCodeAt, Event.isTransactionReceipt, Event.isNonceAt,
    Event.isDepositTransaction, Event.isLf, Bool.false_eq_true, if_false, if_true, Nat.add_zero,
    Nat.zero_add]
    exact ⟨_, _, rfl, Or.inr ⟨sent, _, _, trivial, trivial, rfl, hsend, rfl,
      Or.inr ⟨_, N, _, hN, hfail, hok.1, hok.2, rfl,
        Or.inr (Or.inr ⟨dep, _, _, hrd, rfl, Or.inl ⟨_, rfl, rfl⟩⟩)⟩⟩⟩
  simp only [cr, List.countP_cons, List.countP_nil, List.countP_append, List.append_assoc, List.cons_append,
    List.nil_append, Event.isCallContext, Event.isSuggestGasPrice, Event.isChainID,
    Event.isSendTransaction, Event.isCodeAt, Event.isTransactionReceipt, Event.isNonceAt,
    Event.isDepositTransaction, Event.isLf, Bool.false_eq_true, if_false, if_true, Nat.add_zero,
    Nat.zero_add] at hfailM hokM
  clear hR
  simp only [cr, List.countP_cons, List.countP_nil, List.countP_append, List.append_assoc, List.cons_append,
    List.nil_append, Event.isCallContext, Event.isSuggestGasPrice, Event.isChainID,
    Event.isSendTransaction, Event.isCodeAt, Event.isTransactionReceipt, Event.isNonceAt,
    Event.isDepositTransaction, Event.isLf, Bool.false_eq_true, if_false, if_true, Nat.add_zero,
    Nat.zero_add]
  rcases hm : (env.marshalIndent (env.transactionReceipt M dep.hash).1).2 with _ | e
  swap
  · simp only [ifErr_some, goPanic_apply, cn, cd, cr, List.countP_cons, List.countP_nil, List.countP_append, List.append_assoc, List.cons_append,
    List.nil_append, Event.isCallContext, Event.isSuggestGasPrice, Event.isChainID,
    Event.isSendTransaction, Event.isCodeAt, Event.isTransactionReceipt, Event.isNonceAt,
    Event.isDepositTransaction, Event.isLf, Bool.false_eq_true, if_false, if_true, Nat.add_zero,
    Nat.zero_add]
    exact ⟨_, _, rfl, Or.inr ⟨sent, _, _, trivial, trivial, rfl, hsend, rfl,
      Or.inr ⟨_, N, _, hN, hfail, hok.1, hok.2, rfl,
        Or.inr (Or.inr ⟨dep, _, _, hrd, rfl,
          Or.inr ⟨_, M, _, hM, hokM.1, hokM.2, rfl, Or.inl ⟨rfl, rfl⟩⟩⟩)⟩⟩⟩
  simp only [ifErr_none, lf_apply, cn, cd, cr, List.countP_cons, List.countP_nil, List.countP_append, List.append_assoc, List.cons_append,
    List.nil_append, Event.isCallContext, Event.isSuggestGasPrice, Event.isChainID,
    Event.isSendTransaction, Event.isCodeAt, Event.isTransactionReceipt, Event.isNonceAt,
    Event.isDepositTransaction, Event.isLf, Bool.false_eq_true, if_false, if_true, Nat.add_zero,
    Nat.zero_add]
  exact ⟨_, _, rfl, Or.inr ⟨sent, _, _, trivial, trivial, rfl, hsend, rfl,
    Or.inr ⟨_, N, _, hN, hfail, hok.1, hok.2, rfl,
      Or.inr (Or.inr ⟨dep, _, _, hrd, rfl,
        Or.inr ⟨_, M, _, hM, hokM.1, hokM.2, rfl, Or.inr ⟨_, rfl, rfl⟩⟩⟩)⟩⟩⟩

theorem mem_retryEvents (env : Env) (q : Event) (pr : String) (l n : Nat) (e : Event)
    (he : e ∈ retryEvents env q pr l n) :
    e = q ∨ e = Event.sleep Second ∨ ∃ ts, e = Event.lf ts pr := by
  induction n generalizing l with
  | zero => simp [retryEvents_zero] at he
  | succ n ih =>
    rw [retryEvents_succ] at he
    simp only [List.mem_append, List.mem_cons, List.mem_singleton, List.not_mem_nil, or_false] at he
    rcases he with (h | h | h) | h
    · exact Or.inl h
    · exact Or.inr (Or.inl h)
    · exact Or.inr (Or.inr ⟨_, h⟩)
    · exact ih _ h

theorem mem_pollEvents (env : Env) (q : Event) (pr fo : String) (l n : Nat) (e : Event)
    (he : e ∈ pollEvents env q pr fo l n) :
    e = q ∨ e = Event.sleep Second ∨ ∃ ts m, e = Event.lf ts m := by
  rw [pollEvents] at he
  simp only [List.mem_append, List.mem_cons, List.mem_singleton, List.not_mem_nil, or_false] at he
  rcases he with h | h | h
  · rcases mem_retryEvents env q pr l n e h with h | h | ⟨ts, h⟩
    · exact Or.inl h
    · exact Or.inr (Or.inl h)
    · exact Or.inr (Or.inr ⟨_, _, h⟩)
  · exact Or.inl h
  · exact Or.inr (Or.inr ⟨_, _, h⟩)

theorem retryEvents_pos (env : Env) (q : Event) (pr : String) (l n : Nat) (hn : 0 < n) :
    ∃ r, retryEvents env q pr l n = q :: r := by
  obtain ⟨m, rfl⟩ : ∃ m, n = m + 1 := ⟨n - 1, by omega⟩
  exact ⟨_, by rw [retryEvents_succ]; rfl⟩

theorem pollEvents_head (env : Env) (q : Event) (pr fo : String) (l n : Nat) :
    ∃ r, pollEvents env q pr fo l n = q :: r := by
  cases n with
  | zero => exact ⟨_, pollEvents_zero env q pr fo l⟩
  | succ m => exact ⟨_, by rw [pollEvents_succ]; rfl⟩

/-- What an event of a run of main can be. -/
theorem main_events (env : Env) (fuel : Nat) :
    ∀ e ∈ (main env fuel []).2,
      e ∈ headEvents env ∨ e ∈ bridgeEvents env ∨ e.isLf = true ∨ e.isSleep = true ∨
      e = Event.codeAt (bridgeAddress env) ∨
      (∃ dep, runDeposit env = (some dep, none) ∧ e = Event.transactionReceipt dep.hash) ∨
      (∃ r, e = Event.marshalIndent r) := by
  obtain ⟨o, t, hmain, hcases⟩ := main_cases env fuel
  rw [hmain]
  have hhead : ∀ k, ∀ e ∈ (headEvents env).take k,
      e ∈ headEvents env ∨ e ∈ bridgeEvents env ∨ e.isLf = true ∨ e.isSleep = true ∨
      e = Event.codeAt (bridgeAddress env) ∨
      (∃ dep, runDeposit env = (some dep, none) ∧ e = Event.transactionReceipt dep.hash) ∨
      (∃ r, e = Event.marshalIndent r) :=
    fun k e he => Or.inl (List.mem_of_mem_take he)
  have hbridge : ∀ k, ∀ e ∈ (bridgeEvents env).take k,
      e ∈ headEvents env ∨ e ∈ bridgeEvents env ∨ e.isLf = true ∨ e.isSleep = true ∨
      e = Event.codeAt (bridgeAddress env) ∨
      (∃ dep, runDeposit env = (some dep, none) ∧ e = Event.transactionReceipt dep.hash) ∨
      (∃ r, e = Event.marshalIndent r) :=
    fun k e he => Or.inr (Or.inl (List.mem_of_mem_take he))
  have hretryC : ∀ pr l n, ∀ e ∈ retryEvents env (Event.codeAt (bridgeAddress env)) pr l n,
      e ∈ headEvents env ∨ e ∈ bridgeEvents env ∨ e.isLf = true ∨ e.isSleep = true ∨
      e = Event.codeAt (bridgeAddress env) ∨
      (∃ dep, runDeposit env = (some dep, none) ∧ e = Event.transactionReceipt dep.hash) ∨
      (∃ r, e = Event.marshalIndent r) := by
    intro pr l n e he
    rcases mem_retryEvents _ _ _ _ _ _ he with h | h | ⟨ts, h⟩
    · exact Or.inr (Or.inr (Or.inr (Or.inr (Or.inl h))))
    · exact Or.inr (Or.inr (Or.inr (Or.inl (by rw [h]; rfl))))
    · exact Or.inr (Or.inr (Or.inl (by rw [h]; rfl)))
  have hpollC : ∀ pr fo l n, ∀ e ∈ pollEvents env (Event.codeAt (bridgeAddress env)) pr fo l n,
      e ∈ headEvents env ∨ e ∈ bridgeEvents env ∨ e.isLf = true ∨ e.isSleep = true ∨
      e = Event.codeAt (bridgeAddress env) ∨
      (∃ dep, runDeposit env = (some dep, none) ∧ e = Event.transactionReceipt dep.hash) ∨
      (∃ r, e = Event.marshalIndent r) := by
    intro pr fo l n e he
    rcases mem_pollEvents _ _ _ _ _ _ _ he with h | h | ⟨ts, m, h⟩
    · exact Or.inr (Or.inr (Or.inr (Or.inr (Or.inl h))))
    · exact Or.inr (Or.inr (Or.inr (Or.inl (by rw [h]; rfl))))
    · exact Or.inr (Or.inr (Or.inl (by rw [h]; rfl)))
  rcases hcases with ⟨k, _, rfl, _⟩ | ⟨sent, ts, rest, _, _, _, _, rfl, hrest⟩
  · exact hhead k
  simp only [List.forall_mem_append, List.forall_mem_cons]
  refine ⟨fun e he => Or.inl he, Or.inr (Or.inr (Or.inl rfl)), ?_⟩
  rcases hrest with ⟨l, rfl, _⟩ | ⟨l, N, tail, _, _, _, _, rfl, htail⟩
  · exact hretryC _ _ _
  simp only [List.forall_mem_append, List.forall_mem_cons]
  refine ⟨hpollC _ _ _ _, ?_⟩
  rcases htail with ⟨j, _, rfl, _⟩ | ⟨ts2, rfl, _⟩ | ⟨dep, ts2, rest2, hdep, rfl, hrest2⟩
  · exact hbridge j
  · simp only [List.forall_mem_append, List.forall_mem_cons]
    exact ⟨fun e he => Or.inr (Or.inl he), Or.inr (Or.inr (Or.inl rfl)), by simp⟩
  simp only [List.forall_mem_append, List.forall_mem_cons]
  refine ⟨fun e he => Or.inr (Or.inl he), Or.inr (Or.inr (Or.inl rfl)), ?_⟩
  have hretryR : ∀ pr l n, ∀ e ∈ retryEvents env (Event.transactionReceipt dep.hash) pr l n,
      e ∈ headEvents env ∨ e ∈ bridgeEvents env ∨ e.isLf = true ∨ e.isSleep = true ∨
      e = Event.codeAt (bridgeAddress env) ∨
      (∃ dep, runDeposit env = (some dep, none) ∧ e = Event.transactionReceipt dep.hash) ∨
      (∃ r, e = Event.marshalIndent r) := by
    intro pr l n e he
    rcases mem_retryEvents _ _ _ _ _ _ he with h | h | ⟨ts, h⟩
    · exact Or.inr (Or.inr (Or.inr (Or.inr (Or.inr (Or.inl ⟨dep, hdep, h⟩)))))
    · exact Or.inr (Or.inr (Or.inr (Or.inl (by rw [h]; rfl))))
    · exact Or.inr (Or.inr (Or.inl (by rw [h]; rfl)))
  have hpollR : ∀ pr fo l n, ∀ e ∈ pollEvents env (Event.transactionReceipt dep.hash) pr fo l n,
      e ∈ headEvents env ∨ e ∈ bridgeEvents env ∨ e.isLf = true ∨ e.isSleep = true ∨
      e = Event.codeAt (bridgeAddress env) ∨
      (∃ dep, runDeposit env = (some dep, none) ∧ e = Event.transactionReceipt dep.hash) ∨
      (∃ r, e = Event.marshalIndent r) := by
    intro pr fo l n e he
    rcases mem_pollEvents _ _ _ _ _ _ _ he with h | h | ⟨ts, m, h⟩
    · exact Or.inr (Or.inr (Or.inr (Or.inr (Or.inr (Or.inl ⟨dep, hdep, h⟩)))))
    · exact Or.inr (Or.inr (Or.inr (Or.inl (by rw [h]; rfl))))
    · exact Or.inr (Or.inr (Or.inl (by rw [h]; rfl)))
  rcases hrest2 with ⟨l2, rfl, _⟩ | ⟨l2, M, fin, _, _, _, rfl, hfin⟩
  · exact hretryR _ _ _
  simp only [List.forall_mem_append, List.forall_mem_cons]
  refine ⟨hpollR _ _ _ _, ?_⟩
  rcases hfin with ⟨rfl, _⟩ | ⟨ts3, rfl, _⟩
  · simp
  · simp [Event.isLf]

/-- The deposit call is the only deposit event a run of main can hold. -/
theorem main_deposit_event (env : Env) (fuel : Nat) (e : Event)
    (he : e ∈ (main env fuel []).2) (hd : e.isDepositTransaction = true) :
    e = Event.depositTransaction (runOpts env) (runAddress env) depositValue depositGasLimit
      false [] := by
  rcases main_events env fuel e he with h | h | h | h | h | ⟨dep, _, h⟩ | ⟨r, h⟩
  · simp only [headEvents, List.mem_cons, List.mem_singleton, List.not_mem_nil, or_false] at h
    rcases h with h | h | h | h | h | h | h <;> rw [h] at hd <;> simp [Event.isDepositTransaction] at hd
  · simp only [bridgeEvents, List.mem_cons, List.mem_singleton, List.not_mem_nil, or_false] at h
    rcases h with h | h | h | h | h
    · rw [h] at hd; simp [Event.isDepositTransaction] at hd
    · rw [h] at hd; simp [Event.isDepositTransaction] at hd
    · rw [h] at hd; simp [Event.isDepositTransaction] at hd
    · rw [h] at hd; simp [Event.isDepositTransaction] at hd
    · exact h
  · cases e <;> simp [Event.isLf, Event.isDepositTransaction] at h hd
  · cases e <;> simp [Event.isSleep, Event.isDepositTransaction] at h hd
  · rw [h] at hd; simp [Event.isDepositTransaction] at hd
  · rw [h] at hd; simp [Event.isDepositTransaction] at hd
  · rw [h] at hd; simp [Event.isDepositTransaction] at hd

/-- The shape of a run of main that holds a deposit event. -/
theorem main_deposit_shape (env : Env) (fuel : Nat)
    (he : Event.depositTransaction (runOpts env) (runAddress env) depositValue depositGasLimit
      false [] ∈ (main env fuel []).2) :
    ∃ ts l N X, (env.suggestGasPrice 0).2 = none ∧ (env.chainID 0).2 = none ∧ N < fuel ∧
      (env.codeAt N (bridgeAddress env)).2 = none ∧ (env.codeAt N (bridgeAddress env)).1 ≠ [] ∧
      (main env fuel []).2 = headEvents env ++ Event.lf ts
          ("tx sent: " ++ env.hashHex ((runSignedTx env).getD { hash := 0 }).hash) ::
        (pollEvents env (Event.codeAt (bridgeAddress env))
          ("waiting for contract [" ++ "OptimismPortal" ++ "] to be deployed")
          ("found contract [" ++ "OptimismPortal" ++ "]") l N ++ (bridgeEvents env ++ X)) ∧
      (∀ x ∈ X, x.isDepositTransaction = false) := by
  obtain ⟨o, t, hmain, hcases⟩ := main_cases env fuel
  rw [hmain] at he ⊢
  have hD : Event.isDepositTransaction (Event.depositTransaction (runOpts env) (runAddress env)
      depositValue depositGasLimit false []) = true := rfl
  have hhead : (headEvents env).countP Event.isDepositTransaction = 0 := rfl
  have key : ∀ u : Trace, Event.depositTransaction (runOpts env) (runAddress env)
      depositValue depositGasLimit false [] ∈ u → u.countP Event.isDepositTransaction = 0 → False := by
    intro u hu h0
    have := List.countP_pos_iff.mpr ⟨_, hu, hD⟩
    omega
  rcases hcases with ⟨k, _, rfl, _⟩ | ⟨sent, ts, rest, hg, hc, hs, _, rfl, hrest⟩
  · exact absurd (List.mem_of_mem_take he) (fun h => key _ h hhead)
  rcases hrest with ⟨l, rfl, _⟩ | ⟨l, N, tail, hN, _, hok1, hok2, rfl, htail⟩
  · refine absurd he (fun h => key _ h ?_)
    simp only [List.countP_append, List.countP_cons, hhead, Event.isDepositTransaction]
    rw [countP_retryEvents_eq_zero _ _ _ _ _ _ rfl rfl (fun _ _ => rfl)]
    simp
  have hpoll : ∀ l, List.countP Event.isDepositTransaction
      (pollEvents env (Event.codeAt (bridgeAddress env))
        ("waiting for contract [" ++ "OptimismPortal" ++ "] to be deployed")
        ("found contract [" ++ "OptimismPortal" ++ "]") l N) = 0 :=
    fun l => countP_pollEvents_eq_zero _ _ _ _ _ _ _ rfl rfl (fun _ _ => rfl)
  have hshape : (∃ j, j ≤ 4 ∧ tail = (bridgeEvents env).take j) ∨
      ∃ X, tail = bridgeEvents env ++ X ∧ ∀ x ∈ X, x.isDepositTransaction = false := by
    rcases htail with ⟨j, hj, rfl, _⟩ | ⟨ts2, rfl, _⟩ | ⟨dep, ts2, rest2, _, rfl, hrest2⟩
    · by_cases hj5 : j = 5
      · subst hj5
        exact Or.inr ⟨[], rfl, by simp⟩
      · exact Or.inl ⟨j, by omega, rfl⟩
    · exact Or.inr ⟨_, rfl, by simp [Event.isDepositTransaction]⟩
    · refine Or.inr ⟨_, rfl, ?_⟩
      simp only [List.forall_mem_cons]
      refine ⟨rfl, ?_⟩
      rcases hrest2 with ⟨l2, rfl, _⟩ | ⟨l2, M, fin, _, _, _, rfl, hfin⟩
      · intro x hx
        rcases mem_retryEvents _ _ _ _ _ _ hx with h | h | ⟨ts, h⟩ <;> rw [h] <;> rfl
      · simp only [List.forall_mem_append]
        refine ⟨?_, ?_⟩
        · intro x hx
          rcases mem_pollEvents _ _ _ _ _ _ _ hx with h | h | ⟨ts, m, h⟩ <;> rw [h] <;> rfl
        · rcases hfin with ⟨rfl, _⟩ | ⟨ts3, rfl, _⟩ <;> simp [Event.isDepositTransaction]
  rcases hshape with ⟨j, hj, rfl⟩ | ⟨X, rfl, hX⟩
  · refine absurd he (fun h => key _ h ?_)
    simp only [List.countP_append, List.countP_cons, hhead, hpoll, Event.isDepositTransaction]
    have : List.countP Event.isDepositTransaction ((bridgeEvents env).take j) = 0 := by
      interval_cases j <;> rfl
    rw [this]
    simp
  · refine ⟨ts, l, N, X, hg, hc, hN, hok1, hok2, ?_, hX⟩
    rw [hs]
    rfl

/-- A run of main that holds a receipt query holds the deposit call. -/
theorem main_receipt_implies_deposit (env : Env) (fuel : Nat) (e : Event)
    (he : e ∈ (main env fuel []).2) (hr : e.isTransactionReceipt = true) :
    Event.depositTransaction (runOpts env) (runAddress env) depositValue depositGasLimit
      false [] ∈ (main env fuel []).2 := by
  obtain ⟨o, t, hmain, hcases⟩ := main_cases env fuel
  rw [hmain] at he ⊢
  have hhead : (headEvents env).countP Event.isTransactionReceipt = 0 := rfl
  have hbridge : (bridgeEvents env).countP Event.isTransactionReceipt = 0 := rfl
  have key : ∀ u : Trace, e ∈ u → u.countP Event.isTransactionReceipt = 0 → False := by
    intro u hu h0
    have := List.countP_pos_iff.mpr ⟨_, hu, hr⟩
    omega
  rcases hcases with ⟨k, _, rfl, _⟩ | ⟨sent, ts, rest, hg, hc, hs, _, rfl, hrest⟩
  · exact absurd (List.mem_of_mem_take he) (fun h => key _ h hhead)
  rcases hrest with ⟨l, rfl, _⟩ | ⟨l, N, tail, hN, _, hok1, hok2, rfl, htail⟩
  · refine absurd he (fun h => key _ h ?_)
    simp only [List.countP_append, List.countP_cons, hhead, Event.isTransactionReceipt]
    rw [countP_retryEvents_eq_zero _ _ _ _ _ _ rfl rfl (fun _ _ => rfl)]
    simp
  have hpoll : ∀ l, List.countP Event.isTransactionReceipt
      (pollEvents env (Event.codeAt (bridgeAddress env))
        ("waiting for contract [" ++ "OptimismPortal" ++ "] to be deployed")
        ("found contract [" ++ "OptimismPortal" ++ "]") l N) = 0 :=
    fun l => countP_pollEvents_eq_zero _ _ _ _ _ _ _ rfl rfl (fun _ _ => rfl)
  rcases htail with ⟨j, hj, rfl, _⟩ | ⟨ts2, rfl, _⟩ | ⟨dep, ts2, rest2, _, rfl, _⟩
  · refine absurd he (fun h => key _ h ?_)
    simp only [List.countP_append, List.countP_cons, hhead, hpoll, Event.isTransactionReceipt]
    have : List.countP Event.isTransactionReceipt ((bridgeEvents env).take j) = 0 := by
      interval_cases j <;> rfl
    rw [this]
    simp
  · refine absurd he (fun h => key _ h ?_)
    simp only [List.countP_append, List.countP_cons, List.countP_nil, hhead, hpoll, hbridge,
      Event.isTransactionReceipt]
    simp
  · simp [bridgeEvents]

/-! ## The pollers -/

/-- C1: waitForContract retries exactly until success.  If the first N
code-at-address queries made from the current trace each fail or return empty
code and the next one succeeds with non-empty code, then with fuel for more than
N iterations waitForContract returns, and the trace then holds exactly N+1 more
code-at-address queries.  Moreover, for any node, whenever waitForContract
returns it has made at least one query and the last query it made succeeded with
non-empty code. -/
theorem waitForContract_retries_exactly_until_success (env : Env) (N fuel : Nat)
    (contractAddress name : String) (t : Trace)
    (hfail : ∀ k, k < N →
      (env.codeAt (t.countP Event.isCodeAt + k) (env.hexToAddress contractAddress)).2 ≠ none ∨
      (env.codeAt (t.countP Event.isCodeAt + k) (env.hexToAddress contractAddress)).1 = [])
    (hok : (env.codeAt (t.countP Event.isCodeAt + N) (env.hexToAddress contractAddress)).2 = none ∧
      (env.codeAt (t.countP Event.isCodeAt + N) (env.hexToAddress contractAddress)).1 ≠ [])
    (hfuel : N < fuel) :
    (∃ t', waitForContract env fuel contractAddress name t = (Outcome.ret (), t') ∧
      t'.countP Event.isCodeAt = t.countP Event.isCodeAt + (N + 1)) ∧
    (∀ (fuel0 : Nat) (t0 t1 : Trace),
      waitForContract env fuel0 contractAddress name t0 = (Outcome.ret (), t1) →
      t0.countP Event.isCodeAt < t1.countP Event.isCodeAt ∧
      (env.codeAt (t1.countP Event.isCodeAt - 1) (env.hexToAddress contractAddress)).2 = none ∧
      (env.codeAt (t1.countP Event.isCodeAt - 1) (env.hexToAddress contractAddress)).1 ≠ []) := by
  constructor
  · refine ⟨_, waitForContractLoop_run env contractAddress name N fuel t hfail hok hfuel, ?_⟩
    rw [List.countP_append, countP_pollEvents_codeAt]
  · intro fuel0 t0 t1 hret
    rcases waitForContractLoop_cases env contractAddress name fuel0 t0 with
      ⟨M, _, _, hokM, hrun⟩ | ⟨_, hrun⟩
    · have ht1 : t1 = t0 ++ pollEvents env (Event.codeAt (env.hexToAddress contractAddress))
          ("waiting for contract [" ++ name ++ "] to be deployed")
          ("found contract [" ++ name ++ "]") (t0.countP Event.isLf) M := by
        have := hret.symm.trans hrun
        exact (Prod.mk.inj this).2
      have hcount : t1.countP Event.isCodeAt = t0.countP Event.isCodeAt + (M + 1) := by
        rw [ht1, List.countP_append, countP_pollEvents_codeAt]
      have hlast : t1.countP Event.isCodeAt - 1 = t0.countP Event.isCodeAt + M := by omega
      rw [hlast]
      exact ⟨by omega, hokM⟩
    · have := hret.symm.trans hrun
      exact absurd (Prod.mk.inj this).1 (by simp)

/-- Witness of C1 on the demonstration node: two empty answers, then code. -/
theorem waitForContract_retries_exactly_until_success_witness :
    ∃ t', waitForContract demoEnv 5 depositAddress "OptimismPortal" [] = (Outcome.ret (), t') ∧
      t'.countP Event.isCodeAt = 3 :=
  (waitForContract_retries_exactly_until_success demoEnv 2 5 depositAddress "OptimismPortal" []
    (by decide) (by decide) (by decide)).1

/-- C8: sleep and log accounting of waitForContract.  Under the hypotheses of N
unsuccessful queries followed by a successful one, the events waitForContract
adds to the trace are, N times over, the query, a sleep of one second and the
progress line, and then the query and the success line.  Among them there are
exactly N sleeps, all of one second, exactly N progress lines and exactly one
success line; with N = 0 the events are the first query and the success line. -/
theorem waitForContract_sleep_and_log_accounting (env : Env) (N fuel : Nat)
    (contractAddress name : String) (t : Trace)
    (hfail : ∀ k, k < N →
      (env.codeAt (t.countP Event.isCodeAt + k) (env.hexToAddress contractAddress)).2 ≠ none ∨
      (env.codeAt (t.countP Event.isCodeAt + k) (env.hexToAddress contractAddress)).1 = [])
    (hok : (env.codeAt (t.countP Event.isCodeAt + N) (env.hexToAddress contractAddress)).2 = none ∧
      (env.codeAt (t.countP Event.isCodeAt + N) (env.hexToAddress contractAddress)).1 ≠ [])
    (hfuel : N < fuel) :
    ∃ evs, waitForContract env fuel contractAddress name t = (Outcome.ret (), t ++ evs) ∧
      evs = (List.range N).flatMap (fun k =>
          [Event.codeAt (env.hexToAddress contractAddress), Event.sleep (1 * Second),
            Event.lf (env.now (t.countP Event.isLf + k))
              ("waiting for contract [" ++ name ++ "] to be deployed")])
        ++ [Event.codeAt (env.hexToAddress contractAddress),
            Event.lf (env.now (t.countP Event.isLf + N)) ("found contract [" ++ name ++ "]")] ∧
      evs.countP Event.isSleep = N ∧
      evs.countP (Event.isSleepOf 1000000000) = N ∧
      evs.countP (Event.isLfWith ("waiting for contract [" ++ name ++ "] to be deployed")) = N ∧
      evs.countP (Event.isLfWith ("found contract [" ++ name ++ "]")) = 1 ∧
      evs.countP Event.isLf = N + 1 ∧
      (N = 0 → evs = [Event.codeAt (env.hexToAddress contractAddress),
        Event.lf (env.now (t.countP Event.isLf)) ("found contract [" ++ name ++ "]")]) := by
  refine ⟨_, waitForContractLoop_run env contractAddress name N fuel t hfail hok hfuel, ?_⟩
  have hne := waiting_ne_found_contract name
  refine ⟨by simp [pollEvents, retryEvents], ?_, ?_, ?_, ?_, ?_, ?_⟩
  · simp [pollEvents, countP_retryEvents, Event.isSleep]
  · simp [pollEvents, countP_retryEvents, Event.isSleepOf, Second]
  · simp [pollEvents, countP_retryEvents, Event.isLfWith, hne.symm]
  · simp [pollEvents, countP_retryEvents, Event.isLfWith, hne]
  · simp [pollEvents, countP_retryEvents, Event.isLf]
  · intro h0
    subst h0
    simp [pollEvents_zero]

/-- Witness of C8 on the demonstration node: two empty answers, then code. -/
theorem waitForContract_sleep_and_log_accounting_witness :
    ∃ evs, waitForContract demoEnv 5 depositAddress "OptimismPortal" [] = (Outcome.ret (), [] ++ evs) ∧
      evs.countP Event.isSleep = 2 ∧
      evs.countP (Event.isLfWith ("waiting for contract [" ++ "OptimismPortal" ++ "] to be deployed")) = 2 ∧
      evs.countP (Event.isLfWith ("found contract [" ++ "OptimismPortal" ++ "]")) = 1 := by
  obtain ⟨evs, h1, _, h3, _, h5, h6, _⟩ :=
    waitForContract_sleep_and_log_accounting demoEnv 2 5 depositAddress "OptimismPortal" []
      (by decide) (by decide) (by decide)
  exact ⟨evs, h1, h3, h5, h6⟩

theorem countP_pollEvents_transactionReceipt (env : Env) (h : Hash) (pr fo : String) (l N : Nat) :
    (pollEvents env (Event.transactionReceipt h) pr fo l N).countP Event.isTransactionReceipt =
      N + 1 := by
  simp [pollEvents, countP_retryEvents, Event.isTransactionReceipt]

/-- C2: waitForReceipt retries exactly until success.  If the first N receipt
queries made from the current trace each fail or return a nil receipt and the
next one succeeds with the receipt r, then with fuel for more than N iterations
waitForReceipt returns exactly r, and the trace then holds exactly N+1 more
receipt queries.  Moreover, for any node, whenever waitForReceipt returns, the
receipt it returns is not nil. -/
theorem waitForReceipt_retries_exactly_until_success (env : Env) (N fuel : Nat)
    (txHash : Hash) (name : String) (t : Trace) (r : Receipt)
    (hfail : ∀ k, k < N →
      (env.transactionReceipt (t.countP Event.isTransactionReceipt + k) txHash).2 ≠ none ∨
      (env.transactionReceipt (t.countP Event.isTransactionReceipt + k) txHash).1 = none)
    (hok : env.transactionReceipt (t.countP Event.isTransactionReceipt + N) txHash = (some r, none))
    (hfuel : N < fuel) :
    (∃ t', waitForReceipt env fuel txHash name t = (Outcome.ret (some r), t') ∧
      t'.countP Event.isTransactionReceipt = t.countP Event.isTransactionReceipt + (N + 1)) ∧
    (∀ (fuel0 : Nat) (t0 t1 : Trace) (res : Option Receipt),
      waitForReceipt env fuel0 txHash name t0 = (Outcome.ret res, t1) → res ≠ none) := by
  constructor
  · rcases waitForReceiptLoop_cases env txHash name fuel t with
      ⟨M, hM, hfailM, hokM, hrun⟩ | ⟨hfailF, _⟩
    · have hMN : M = N := by
        rcases Nat.lt_trichotomy M N with hlt | heq | hgt
        · rcases hfail M hlt with h1 | h1
          · exact absurd hokM.1 h1
          · exact absurd h1 hokM.2
        · exact heq
        · rcases hfailM N hgt with h1 | h1
          · rw [hok] at h1
            exact absurd rfl h1
          · rw [hok] at h1
            exact absurd h1 (by simp)
      subst hMN
      have hrun' : waitForReceipt env fuel txHash name t =
          (Outcome.ret (some r), t ++ pollEvents env (Event.transactionReceipt txHash)
            ("waiting for receipt [" ++ name ++ "] to be mined")
            ("found receipt [" ++ name ++ "]") (t.countP Event.isLf) M) := by
        show waitForReceiptLoop env txHash name fuel false t = _
        rw [hrun, hok]
      refine ⟨_, hrun', ?_⟩
      rw [List.countP_append, countP_pollEvents_transactionReceipt]
    · rcases hfailF N hfuel with h1 | h1
      · rw [hok] at h1
        exact absurd rfl h1
      · rw [hok] at h1
        exact absurd h1 (by simp)
  · intro fuel0 t0 t1 res hret
    rcases waitForReceiptLoop_cases env txHash name fuel0 t0 with
      ⟨M, _, _, hokM, hrun⟩ | ⟨_, hrun⟩
    · have := hret.symm.trans hrun
      have hres := (Prod.mk.inj this).1
      injection hres with hres
      rw [hres]
      exact hokM.2
    · have := hret.symm.trans hrun
      exact absurd (Prod.mk.inj this).1 (by simp)

/-- Witness of C2 on the demonstration node: one failed query, then the
receipt. -/
theorem waitForReceipt_retries_exactly_until_success_witness :
    ∃ t', waitForReceipt demoEnv 5 22 "depositTx" [] =
        (Outcome.ret (some { TxHash := 22, Status := 1, BlockNumber := 5 }), t') ∧
      t'.countP Event.isTransactionReceipt = 2 :=
  (waitForReceipt_retries_exactly_until_success demoEnv 1 5 22 "depositTx" []
    { TxHash := 22, Status := 1, BlockNumber := 5 } (by decide) (by decide) (by decide)).1

/-! ## The orchestrator -/

/-- C4: fatal abort on price or chain-id failure.  In every run of main on a node
whose gas-price query fails or whose chain-id query fails, the run ends
abnormally (log.Fatal or panic), and its trace holds no signing, no broadcast,
no deposit call, no code-at-address query and no receipt query. -/
theorem main_aborts_on_price_or_chainID_failure (env : Env) (fuel : Nat)
    (h : (env.suggestGasPrice 0).2 ≠ none ∨ (env.chainID 0).2 ≠ none) :
    (main env fuel []).1.isAbort = true ∧
    ∀ e ∈ (main env fuel []).2, e.isSignTx = false ∧ e.isSendTransaction = false ∧
      e.isDepositTransaction = false ∧ e.isCodeAt = false ∧ e.isTransactionReceipt = false := by
  obtain ⟨o, t, hmain, hcases⟩ := main_cases env fuel
  rw [hmain]
  rcases hcases with ⟨k, hk, rfl, hab, hg, hc, _⟩ | ⟨sent, ts, rest, hg, hc, _⟩
  · have hk5 : k ≤ 5 := by
      rcases h with h | h
      · by_contra hlt
        exact h (hg (by omega))
      · by_contra hlt
        exact h (hc (by omega))
    refine ⟨hab, ?_⟩
    have hall : ((headEvents env).take k).all (fun e => !e.isSignTx && !e.isSendTransaction &&
        !e.isDepositTransaction && !e.isCodeAt && !e.isTransactionReceipt) = true := by
      interval_cases k <;> rfl
    intro e he
    have := List.all_eq_true.mp hall e he
    simpa [and_assoc] using this
  · rcases h with h | h
    · exact absurd hg h
    · exact absurd hc h

/-- Witness of C4 on a node whose gas-price query fails. -/
theorem main_aborts_on_price_or_chainID_failure_witness :
    (main noPriceEnv 5 []).1.isAbort = true ∧
    ∀ e ∈ (main noPriceEnv 5 []).2, e.isSignTx = false ∧ e.isSendTransaction = false ∧
      e.isDepositTransaction = false ∧ e.isCodeAt = false ∧ e.isTransactionReceipt = false :=
  main_aborts_on_price_or_chainID_failure noPriceEnv 5 (by decide)

/-- C6, counterexample: when the underlying call fails with the error
"connection refused", SetBalance returns an error with another message. -/
theorem SetBalance_error_is_not_the_underlying_error :
    refusingEnv.callContext 0 "anvil_setBalance" 8 (hexutilUint64 1) = some "connection refused" ∧
    (SetBalance refusingEnv 8 1 []).1 = Outcome.ret (some "0xab, 1: connection refused") ∧
    (SetBalance refusingEnv 8 1 []).1 ≠ Outcome.ret (some "connection refused") := by
  decide

/-- C6, amended: SetBalance performs exactly one anvil_setBalance call and no
retry; it returns no error exactly when that call succeeds; and when the call
fails with error e it returns a new error whose message is the account, the
balance and the message of e, formatted as "account, balance: e". -/
theorem SetBalance_wraps_the_underlying_failure (env : Env) (account : Address) (balance : Nat)
    (t : Trace) :
    (SetBalance env account balance t).2 =
      t ++ [Event.callContext "anvil_setBalance" account (hexutilUint64 balance)] ∧
    ((SetBalance env account balance t).1 = Outcome.ret none ↔
      env.callContext (t.countP Event.isCallContext) "anvil_setBalance" account
        (hexutilUint64 balance) = none) ∧
    (∀ e, env.callContext (t.countP Event.isCallContext) "anvil_setBalance" account
        (hexutilUint64 balance) = some e →
      (SetBalance env account balance t).1 =
        Outcome.ret (some (env.addressString account ++ ", " ++ toString balance ++ ": " ++ e))) := by
  rw [SetBalance_apply]
  refine ⟨rfl, ?_, ?_⟩
  · cases env.callContext (t.countP Event.isCallContext) "anvil_setBalance" account
      (hexutilUint64 balance) <;> simp
  · intro e he
    rw [he]

/-- Witness of C6 as amended, on the node whose balance-setting call fails. -/
theorem SetBalance_wraps_the_underlying_failure_witness :
    (SetBalance refusingEnv 8 1 []).2 = [] ++ [Event.callContext "anvil_setBalance" 8 (hexutilUint64 1)] :=
  (SetBalance_wraps_the_underlying_failure refusingEnv 8 1 []).1

/-- The int64 conversion keeps a nonce below 2^63: there the options of the
deposit call carry the nonce the node reported. -/
theorem depositOpts_nonce_of_lt (a : Address) (id price : Option Int) (k : PrivateKey) (n : Nat)
    (hn : n < 2 ^ 63) : (depositOpts a id price k n).Nonce = some (n : Int) := by
  have h64 : n % 2 ^ 64 = n := Nat.mod_eq_of_lt (by omega)
  simp only [depositOpts, bigNewInt, int64, h64, if_pos hn]

/-- C7, the code at the failing input: when the node reports the nonce 2^63,
the nonce main places in the options of the deposit call is -2^63. -/
theorem deposit_nonce_wraps_at_two_pow_63 :
    highNonceEnv.nonceAt 0 8 = (9223372036854775808, none) ∧
    Event.depositTransaction (depositOpts 8 (some 31337) (some 2) 7 9223372036854775808) 8
      depositValue depositGasLimit false [] ∈ (main highNonceEnv 5 []).2 ∧
    (depositOpts 8 (some 31337) (some 2) 7 9223372036854775808).Nonce =
      some (-9223372036854775808) := by
  decide

/-- C5: ordering invariant of main.  Every deposit event e of a run of main
splits the trace as pre, e, post, where pre holds no deposit event and holds a
code-at-address query for the bridge address that succeeded with non-empty
code, a gas-price query that succeeded and a chain-id query that succeeded; and
the options of e carry that gas price and that chain id. -/
theorem deposit_only_after_readiness_price_and_chainID (env : Env) (fuel : Nat) (e : Event)
    (he : e ∈ (main env fuel []).2) (hd : e.isDepositTransaction = true) :
    ∃ pre post, (main env fuel []).2 = pre ++ e :: post ∧
      (∀ x ∈ pre, x.isDepositTransaction = false) ∧
      (∃ p1 p2, pre = p1 ++ Event.codeAt (env.hexToAddress depositAddress) :: p2 ∧
        (env.codeAt (p1.countP Event.isCodeAt) (env.hexToAddress depositAddress)).2 = none ∧
        (env.codeAt (p1.countP Event.isCodeAt) (env.hexToAddress depositAddress)).1 ≠ []) ∧
      (∃ q1 q2, pre = q1 ++ Event.suggestGasPrice :: q2 ∧
        (env.suggestGasPrice (q1.countP Event.isSuggestGasPrice)).2 = none) ∧
      (∃ r1 r2, pre = r1 ++ Event.chainID :: r2 ∧
        (env.chainID (r1.countP Event.isChainID)).2 = none) ∧
      (∃ opts a v g c d, e = Event.depositTransaction opts a v g c d ∧
        opts.GasPrice = (env.suggestGasPrice 0).1 ∧ opts.Signer.chainID = (env.chainID 0).1) := by
  have heq := main_deposit_event env fuel e he hd
  subst heq
  obtain ⟨ts, l, N, X, hg, hc, hN, hok1, hok2, ht, hX⟩ := main_deposit_shape env fuel he
  rw [ht]
  refine ⟨headEvents env ++ Event.lf ts
      ("tx sent: " ++ env.hashHex ((runSignedTx env).getD { hash := 0 }).hash) ::
      (pollEvents env (Event.codeAt (bridgeAddress env))
        ("waiting for contract [" ++ "OptimismPortal" ++ "] to be deployed")
        ("found contract [" ++ "OptimismPortal" ++ "]") l N ++ (bridgeEvents env).take 4), X,
    ?_, ?_, ?_, ?_, ?_, ?_⟩
  · simp [bridgeEvents, List.append_assoc]
  · simp only [List.forall_mem_append, List.forall_mem_cons]
    refine ⟨?_, rfl, ?_, ?_⟩
    · intro x hx
      have := List.all_eq_true.mp
        (rfl : (headEvents env).all (fun e => !e.isDepositTransaction) = true) x hx
      simpa using this
    · intro x hx
      rcases mem_pollEvents _ _ _ _ _ _ _ hx with h | h | ⟨ts, m, h⟩ <;> rw [h] <;> rfl
    · intro x hx
      have := List.all_eq_true.mp
        (rfl : ((bridgeEvents env).take 4).all (fun e => !e.isDepositTransaction) = true) x hx
      simpa using this
  · refine ⟨headEvents env ++ Event.lf ts
        ("tx sent: " ++ env.hashHex ((runSignedTx env).getD { hash := 0 }).hash) ::
        retryEvents env (Event.codeAt (bridgeAddress env))
          ("waiting for contract [" ++ "OptimismPortal" ++ "] to be deployed") l N,
        Event.lf (env.now (l + N)) ("found contract [" ++ "OptimismPortal" ++ "]") ::
          (bridgeEvents env).take 4, ?_, ?_⟩
    · simp only [pollEvents, List.append_assoc, List.cons_append, List.nil_append]
      rfl
    · have hcount : List.countP Event.isCodeAt (headEvents env ++ Event.lf ts
          ("tx sent: " ++ env.hashHex ((runSignedTx env).getD { hash := 0 }).hash) ::
          retryEvents env (Event.codeAt (bridgeAddress env))
            ("waiting for contract [" ++ "OptimismPortal" ++ "] to be deployed") l N) = N := by
        have hh : (headEvents env).countP Event.isCodeAt = 0 := rfl
        simp [List.countP_append, List.countP_cons, hh, countP_retryEvents, Event.isCodeAt]
      rw [hcount]
      exact ⟨hok1, hok2⟩
  · exact ⟨[Event.dial "http://localhost:8888", Event.generateKey,
      Event.callContext "anvil_setBalance" (runAddress env) (hexutilUint64 seedBalance)], _,
      rfl, hg⟩
  · exact ⟨[Event.dial "http://localhost:8888", Event.generateKey,
      Event.callContext "anvil_setBalance" (runAddress env) (hexutilUint64 seedBalance),
      Event.suggestGasPrice], _, rfl, hc⟩
  · exact ⟨_, _, _, _, _, _, rfl, rfl, rfl⟩

/-- Witness of C5 on the demonstration node. -/
theorem deposit_only_after_readiness_price_and_chainID_witness :
    ∃ pre post, (main demoEnv 5 []).2 = pre ++
        Event.depositTransaction (depositOpts 8 (some 31337) (some 2) 7 1) 8
          depositValue depositGasLimit false [] :: post ∧
      (∀ x ∈ pre, x.isDepositTransaction = false) ∧
      (∃ p1 p2, pre = p1 ++ Event.codeAt (demoEnv.hexToAddress depositAddress) :: p2 ∧
        (demoEnv.codeAt (p1.countP Event.isCodeAt) (demoEnv.hexToAddress depositAddress)).2 = none ∧
        (demoEnv.codeAt (p1.countP Event.isCodeAt) (demoEnv.hexToAddress depositAddress)).1 ≠ []) := by
  obtain ⟨pre, post, h1, h2, h3, _⟩ :=
    deposit_only_after_readiness_price_and_chainID demoEnv 5
      (Event.depositTransaction (depositOpts 8 (some 31337) (some 2) 7 1) 8
        depositValue depositGasLimit false []) (by decide) (by decide)
  exact ⟨pre, post, h1, h2, h3⟩

/-- C3, counterexample: on the demonstration node the run ends normally and the
transfer with hash 11 is broadcast successfully, yet no receipt query for that
hash is ever made, and no receipt query at all precedes the first
code-at-address query. -/
theorem transfer_confirmation_is_not_awaited :
    (main demoEnv 5 []).1 = Outcome.ret () ∧
    Event.sendTransaction (some { hash := 11 }) ∈ (main demoEnv 5 []).2 ∧
    demoEnv.sendTransaction 0 (some { hash := 11 }) = none ∧
    Event.transactionReceipt 11 ∉ (main demoEnv 5 []).2 ∧
    (∀ e ∈ ((main demoEnv 5 []).2).takeWhile (fun x => !x.isCodeAt),
      e.isTransactionReceipt = false) := by
  decide

/-- C3, amended: in every run of main in which the plain transfer is broadcast
successfully (and the readiness loop may run), the first code-at-address query
directly follows the broadcast and its log line, with no receipt query before
it; every receipt query of the run asks for the hash of the transaction the
deposit call returned and comes after the deposit call; and a run that ends
normally has obtained the receipt of the deposit.  The confirmation of the
transfer is not awaited. -/
theorem main_awaits_only_the_deposit (env : Env) (fuel : Nat) (sent : Transaction)
    (hsigned : runSignedTx env = some sent)
    (hin : Event.sendTransaction (some sent) ∈ (main env fuel []).2)
    (hsent : env.sendTransaction 0 (some sent) = none) (hfuel : 0 < fuel) :
    (∃ pre ts post, (main env fuel []).2 =
        pre ++ [Event.sendTransaction (some sent),
          Event.lf ts ("tx sent: " ++ env.hashHex sent.hash),
          Event.codeAt (env.hexToAddress depositAddress)] ++ post ∧
      ∀ x ∈ pre, x.isTransactionReceipt = false ∧ x.isCodeAt = false) ∧
    (∀ h, Event.transactionReceipt h ∈ (main env fuel []).2 →
      ∃ dep, runDeposit env = (some dep, none) ∧ h = dep.hash ∧
        ∃ pre post, (main env fuel []).2 =
          pre ++ Event.depositTransaction (runOpts env) (runAddress env) depositValue
            depositGasLimit false [] :: post ∧
          ∀ x ∈ pre, x.isTransactionReceipt = false) ∧
    ((main env fuel []).1 = Outcome.ret () →
      ∃ dep M, runDeposit env = (some dep, none) ∧
        (env.transactionReceipt M dep.hash).2 = none ∧
        (env.transactionReceipt M dep.hash).1 ≠ none ∧
        Event.transactionReceipt dep.hash ∈ (main env fuel []).2) := by
  refine ⟨?_, ?_, ?_⟩
  · obtain ⟨o, t, hmain, hcases⟩ := main_cases env fuel
    rw [hmain] at hin ⊢
    have hpre : ∀ x ∈ (headEvents env).take 6,
        x.isTransactionReceipt = false ∧ x.isCodeAt = false := by
      intro x hx
      have := List.all_eq_true.mp
        (rfl : ((headEvents env).take 6).all
          (fun e => !e.isTransactionReceipt && !e.isCodeAt) = true) x hx
      simpa using this
    rcases hcases with ⟨k, hk, rfl, _, _, _, hwhy⟩ | ⟨sent2, ts, rest, _, _, hs, _, rfl, hrest⟩
    · have hk7 : k = 7 := by
        by_contra hne
        have hk6 : k ≤ 6 := by omega
        interval_cases k <;> simp [headEvents] at hin
      rcases hwhy hk7 with h | h
      · rw [hsigned] at h
        exact absurd hsent h
      · rw [hsigned] at h
        exact absurd h (by simp)
    · have hsame : sent2 = sent := by
        rw [hsigned] at hs
        exact (Option.some.inj hs).symm
      subst hsame
      have hstart : ∃ r, rest = Event.codeAt (env.hexToAddress depositAddress) :: r := by
        rcases hrest with ⟨l, rfl, _⟩ | ⟨l, N, tail, _, _, _, _, rfl, _⟩
        · exact retryEvents_pos _ _ _ _ _ hfuel
        · obtain ⟨r, hr⟩ := pollEvents_head env (Event.codeAt (bridgeAddress env))
            ("waiting for contract [" ++ "OptimismPortal" ++ "] to be deployed")
            ("found contract [" ++ "OptimismPortal" ++ "]") l N
          exact ⟨r ++ tail, by rw [hr]; rfl⟩
      obtain ⟨r, rfl⟩ := hstart
      refine ⟨(headEvents env).take 6, ts, r, ?_, hpre⟩
      simp [headEvents, hsigned]
  · intro h hh
    have hdep : ∃ dep, runDeposit env = (some dep, none) ∧ h = dep.hash := by
      rcases main_events env fuel _ hh with h1 | h1 | h1 | h1 | h1 | ⟨dep, hdep, h1⟩ | ⟨r, h1⟩
      · simp [headEvents] at h1
      · simp [bridgeEvents] at h1
      · simp [Event.isLf] at h1
      · simp [Event.isSleep] at h1
      · simp at h1
      · exact ⟨dep, hdep, by injection h1⟩
      · simp at h1
    obtain ⟨dep, hdep, hhash⟩ := hdep
    refine ⟨dep, hdep, hhash, ?_⟩
    have hD := main_receipt_implies_deposit env fuel _ hh rfl
    obtain ⟨ts, l, N, X, _, _, _, _, _, ht, _⟩ := main_deposit_shape env fuel hD
    rw [ht]
    refine ⟨headEvents env ++ Event.lf ts
        ("tx sent: " ++ env.hashHex ((runSignedTx env).getD { hash := 0 }).hash) ::
        (pollEvents env (Event.codeAt (bridgeAddress env))
          ("waiting for contract [" ++ "OptimismPortal" ++ "] to be deployed")
          ("found contract [" ++ "OptimismPortal" ++ "]") l N ++ (bridgeEvents env).take 4), X,
      ?_, ?_⟩
    · simp [bridgeEvents, List.append_assoc]
    · simp only [List.forall_mem_append, List.forall_mem_cons]
      refine ⟨?_, rfl, ?_, ?_⟩
      · intro x hx
        have := List.all_eq_true.mp
          (rfl : (headEvents env).all (fun e => !e.isTransactionReceipt) = true) x hx
        simpa using this
      · intro x hx
        rcases mem_pollEvents _ _ _ _ _ _ _ hx with h | h | ⟨ts, m, h⟩ <;> rw [h] <;> rfl
      · intro x hx
        have := List.all_eq_true.mp
          (rfl : ((bridgeEvents env).take 4).all (fun e => !e.isTransactionReceipt) = true) x hx
        simpa using this
  · obtain ⟨o, t, hmain, hcases⟩ := main_cases env fuel
    rw [hmain]
    intro ho
    have ho' : o = Outcome.ret () := ho
    subst ho'
    rcases hcases with ⟨k, _, _, hab, _⟩ | ⟨sent2, ts, rest, _, _, _, _, rfl, hrest⟩
    · exact absurd hab (by decide)
    rcases hrest with ⟨l, _, hrun⟩ | ⟨l, N, tail, _, _, _, _, rfl, htail⟩
    · exact absurd hrun (by decide)
    rcases htail with ⟨j, _, _, hab⟩ | ⟨ts2, _, hab⟩ | ⟨dep, ts2, rest2, hdep, rfl, hrest2⟩
    · exact absurd hab (by decide)
    · exact absurd hab (by decide)
    rcases hrest2 with ⟨l2, _, hrun⟩ | ⟨l2, M, fin, _, hok1, hok2, rfl, _⟩
    · exact absurd hrun (by decide)
    refine ⟨dep, M, hdep, hok1, hok2, ?_⟩
    obtain ⟨r, hr⟩ := pollEvents_head env (Event.transactionReceipt dep.hash)
      ("waiting for receipt [" ++ "depositTx" ++ "] to be mined")
      ("found receipt [" ++ "depositTx" ++ "]") l2 M
    rw [hr]
    simp

/-- Witness of C3 as amended, on the demonstration node. -/
theorem main_awaits_only_the_deposit_witness :
    ∃ pre ts post, (main demoEnv 5 []).2 =
        pre ++ [Event.sendTransaction (some { hash := 11 }),
          Event.lf ts ("tx sent: " ++ demoEnv.hashHex 11),
          Event.codeAt (demoEnv.hexToAddress depositAddress)] ++ post ∧
      ∀ x ∈ pre, x.isTransactionReceipt = false ∧ x.isCodeAt = false :=
  (main_awaits_only_the_deposit demoEnv 5 { hash := 11 } (by decide) (by decide) (by decide)
    (by decide)).1

/-- C9: the seeded balance is exactly 10 * 10^18.  The constant main passes to
SetBalance, converted to uint64 and then to hexutil.Uint64, is 10^19, which is
below 2^64; the value of the transfer is exactly 10^16, which is less than the
seeded balance; and these are the values of the balance-setting call and of the
signed transfer in every run of main. -/
theorem seeded_balance_and_transfer_value (env : Env) (fuel : Nat) :
    seedBalance = 10 ^ 19 ∧ 10 * 10 ^ 18 < 2 ^ 64 ∧ hexutilUint64 seedBalance = 10 ^ 19 ∧
    transferValue = some (10 ^ 16) ∧
    (∃ v, transferValue = some v ∧ v < (seedBalance : Int)) ∧
    (∀ m a b, Event.callContext m a b ∈ (main env fuel []).2 →
      m = "anvil_setBalance" ∧ b = 10 ^ 19) ∧
    (∀ tx id k, Event.signTx tx id k ∈ (main env fuel []).2 → tx.Value = some (10 ^ 16)) := by
  have hb : hexutilUint64 seedBalance = 10 ^ 19 := by decide
  have hv : transferValue = some (10 ^ 16) := by decide
  refine ⟨by decide, by decide, hb, hv, ⟨10 ^ 16, hv, by decide⟩, ?_, ?_⟩
  · intro m a b hm
    rcases main_events env fuel _ hm with h1 | h1 | h1 | h1 | h1 | ⟨dep, _, h1⟩ | ⟨r, h1⟩
    · simp only [headEvents, List.mem_cons, List.mem_singleton, List.not_mem_nil, or_false] at h1
      rcases h1 with h1 | h1 | h1 | h1 | h1 | h1 | h1 <;> first
        | (injection h1 with h2 h3 h4
           exact ⟨h2, by rw [h4, hb]⟩)
        | simp at h1
    · simp [bridgeEvents] at h1
    · simp [Event.isLf] at h1
    · simp [Event.isSleep] at h1
    · simp at h1
    · simp at h1
    · simp at h1
  · intro tx id k hm
    rcases main_events env fuel _ hm with h1 | h1 | h1 | h1 | h1 | ⟨dep, _, h1⟩ | ⟨r, h1⟩
    · simp only [headEvents, List.mem_cons, List.mem_singleton, List.not_mem_nil, or_false] at h1
      rcases h1 with h1 | h1 | h1 | h1 | h1 | h1 | h1 <;> first
        | (injection h1 with h2 h3 h4
           rw [h2]
           exact hv)
        | simp at h1
    · simp [bridgeEvents] at h1
    · simp [Event.isLf] at h1
    · simp [Event.isSleep] at h1
    · simp at h1
    · simp at h1
    · simp at h1

/-- C10, counterexample: on the demonstration node the options of the deposit
call carry the gas limit 1,000,000, not 25,000,000 / 2. -/
theorem deposit_options_gas_limit_is_one_million :
    Event.depositTransaction (depositOpts 8 (some 31337) (some 2) 7 1) 8
      depositValue depositGasLimit false [] ∈ (main demoEnv 5 []).2 ∧
    (depositOpts 8 (some 31337) (some 2) 7 1).GasLimit = 1000000 ∧
    (depositOpts 8 (some 31337) (some 2) 7 1).GasLimit ≠ 25000000 / 2 := by
  decide

/-- C10, amended: in every deposit call main submits, the options carry the
gas limit 1,000,000, the value 10^18 and neither fee cap nor tip cap; the gas
limit argument of the call is 25,000,000 / 2 = 12,500,000; and the value
argument of the call, 10^18 / 2, is exactly half of the value of the options. -/
theorem deposit_call_options_and_arguments (env : Env) (fuel : Nat) (opts : TransactOpts)
    (a : Address) (v : Option Int) (g : Nat) (c : Bool) (d : Bytes)
    (h : Event.depositTransaction opts a v g c d ∈ (main env fuel []).2) :
    opts.GasLimit = 1000000 ∧ g = 25000000 / 2 ∧ g = 12500000 ∧
    opts.Value = some (10 ^ 18) ∧ v = some (10 ^ 18 / 2) ∧
    (∃ x y : Int, opts.Value = some x ∧ v = some y ∧ 2 * y = x) ∧
    opts.GasFeeCap = none ∧ opts.GasTipCap = none := by
  have heq := main_deposit_event env fuel _ h rfl
  injection heq with h1 h2 h3 h4 h5 h6
  subst h1 h3 h4
  have hval : (runOpts env).Value = some (10 ^ 18) := by
    show bigNewInt (int64 (10 ^ 18)) = some (10 ^ 18)
    decide
  have harg : depositValue = some (10 ^ 18 / 2) := by decide
  refine ⟨?_, by decide, by decide, hval, harg, ⟨10 ^ 18, 10 ^ 18 / 2, hval, harg, by decide⟩,
    rfl, rfl⟩
  show uint64 (10 ^ 6) = 1000000
  decide

/-- Witness of C10 as amended, on the demonstration node. -/
theorem deposit_call_options_and_arguments_witness :
    (depositOpts 8 (some 31337) (some 2) 7 1).GasLimit = 1000000 ∧
    depositGasLimit = 25000000 / 2 ∧ depositGasLimit = 12500000 :=
  have h := deposit_call_options_and_arguments demoEnv 5
    (depositOpts 8 (some 31337) (some 2) 7 1) 8 depositValue depositGasLimit false [] (by decide)
  ⟨h.1, h.2.1, h.2.2.1⟩

end Gethtx

